import Mathlib

/-!
# go_oop: shapes with hand-made virtual dispatch (src/oop.go)

A shallow embedding of `oop.go`.

* `F64` models Go's `float64` (IEEE 754 binary64) at the level of its bits:
  a sign and the 63 remaining bits.  Multiplication rounds to nearest, ties
  to even; comparison is the IEEE one.  NaN payloads are not tracked: every
  NaN an operation produces is the quiet NaN `0x7FF8000000000001`.
* `Any` models `interface{}`: the dynamic type and, for the three pointer
  types of the file, the address held.
* `State` holds the three kinds of heap objects and what has been written to
  standard output; the functions of the file are state-passing functions in
  `M`, which fail with an `Err` where the Go code panics.
* A call through a function-valued field is made by `callArea` and `callCmp`.
  `callCmp` takes a bound on the depth of nested calls through fields.
-/

namespace GoOop

/-! ## float64 -/

/-- The number 2^52: the weight of the hidden bit of a binary64 significand. -/
def two52 : Nat := 4503599627370496

/-- The low 63 bits of +Inf and -Inf: exponent field 2047, fraction 0. -/
def infMag : Nat := 9218868437227405312

/-- Go's `float64`: the sign bit and the low 63 bits (11 bits of biased
exponent, 52 bits of fraction) of the IEEE 754 binary64 encoding. -/
structure F64 where
  sign : Bool
  mag : Nat
  hmag : mag < 9223372036854775808
deriving DecidableEq

namespace F64

/-- The value with the 64-bit pattern `b`, as `math.Float64frombits`. -/
def ofBits (b : Nat) : F64 :=
  ⟨decide (b / 9223372036854775808 % 2 = 1), b % 9223372036854775808,
    Nat.mod_lt _ (by decide)⟩

/-- The 64-bit pattern, as `math.Float64bits`. -/
def toBits (x : F64) : Nat :=
  (if x.sign then 9223372036854775808 else 0) + x.mag

/-- The zero of the given sign. -/
def zero (sign : Bool) : F64 := ⟨sign, 0, by decide⟩

/-- The infinity of the given sign. -/
def inf (sign : Bool) : F64 := ⟨sign, infMag, by decide⟩

/-- The NaN produced by an invalid operation. -/
def nan : F64 := ⟨false, 9221120237041090561, by decide⟩

/-- Whether the value is a NaN. -/
def isNaN (x : F64) : Bool := decide (infMag < x.mag)

/-- Whether the value is +Inf or -Inf. -/
def isInf (x : F64) : Bool := decide (x.mag = infMag)

/-- Whether the value is a number (zero, subnormal or normal). -/
def isFinite (x : F64) : Bool := decide (x.mag < infMag)

/-- The biased exponent field. -/
def expField (x : F64) : Nat := x.mag / two52

/-- The integer significand of a finite value: the fraction, with the hidden
bit for a normal number. -/
def mant (x : F64) : Nat :=
  if x.expField = 0 then x.mag % two52 else two52 + x.mag % two52

/-- The exponent of the unit in the last place of a finite value, which is
`mant x * 2 ^ expo x` in absolute value. -/
def expo (x : F64) : Int :=
  if x.expField = 0 then -1074 else (x.expField : Int) - 1075

/-- The rational number a finite value stands for. -/
def toRat (x : F64) : ℚ :=
  (if x.sign then -1 else 1) * (x.mant : ℚ) * (2 : ℚ) ^ x.expo

/-- Division of `m` by `2 ^ sh`, rounded to nearest, ties to even. -/
def rne (m sh : Nat) : Nat :=
  let q := m / 2 ^ sh
  let r := m % 2 ^ sh
  if 2 ^ sh < 2 * r ∨ (2 * r = 2 ^ sh ∧ q % 2 = 1) then q + 1 else q

/-- The position of the leading one bit of `n`, searched in at most `fuel`
halvings. -/
def ilog2Aux : Nat → Nat → Nat
  | 0, _ => 0
  | fuel + 1, n => if n < 2 then 0 else ilog2Aux fuel (n / 2) + 1

/-- The position of the leading one bit of `n`: `2 ^ ilog2 n ≤ n < 2 ^ (ilog2 n + 1)`
for `n > 0`. -/
def ilog2 (n : Nat) : Nat := ilog2Aux n n

/-- The value of sign `sign` whose low 63 bits are `mag`, or the infinity when
`mag` is beyond the largest finite pattern. -/
def pack (sign : Bool) (mag : Nat) : F64 :=
  if h : mag < infMag then ⟨sign, mag, by unfold infMag at h; omega⟩ else inf sign

/-- The binary64 nearest to `± m * 2 ^ e` (ties to even), with overflow to
infinity and gradual underflow. -/
def roundNE (sign : Bool) (m : Nat) (e : Int) : F64 :=
  if m = 0 then zero sign
  else
    let ulp : Int := max (e + (ilog2 m : Int) - 52) (-1074)
    let q : Nat := if ulp ≤ e then m * 2 ^ (e - ulp).toNat else rne m (ulp - e).toNat
    pack sign ((ulp + 1074).toNat * two52 + q)

/-- Go's `x * y` on float64.  Of a NaN result only that it is a NaN is modelled:
the sign and the payload a processor keeps from a NaN operand (amd64 keeps those
of the operand) are left to the architecture by Go, and `nan` stands for every
NaN; on numbers the product is the IEEE 754 one. -/
def mul (x y : F64) : F64 :=
  if x.isNaN || y.isNaN then nan
  else if x.isInf then (if y.mag = 0 then nan else inf (xor x.sign y.sign))
  else if y.isInf then (if x.mag = 0 then nan else inf (xor x.sign y.sign))
  else roundNE (xor x.sign y.sign) (x.mant * y.mant) (x.expo + y.expo)

/-- The conversion of a non-negative integer constant to float64, as for the
`5` of `NewSquare(5)`. -/
def ofNat (n : Nat) : F64 := roundNE false n 0

/-- The position of a non-NaN value on the number line, up to a monotone
relabelling: the two zeros share a position. -/
def key (x : F64) : Int := if x.sign then -(x.mag : Int) else (x.mag : Int)

/-- Go's `x > y` on float64: false as soon as an operand is a NaN. -/
def gt (x y : F64) : Bool :=
  !x.isNaN && !y.isNaN && decide (y.key < x.key)

/-- Go's `x == y` on float64: false as soon as an operand is a NaN, and the
two zeros are equal. -/
def eq (x y : F64) : Bool :=
  !x.isNaN && !y.isNaN && decide (x.key = y.key)

/-- Go's `-x` on float64: the sign bit flipped, the other bits kept. -/
def neg (x : F64) : F64 := ⟨!x.sign, x.mag, x.hmag⟩

/-- Go's `x <= y` on float64: false as soon as an operand is a NaN. -/
def le (x y : F64) : Bool :=
  !x.isNaN && !y.isNaN && decide (x.key ≤ y.key)

/-- Go's `x >= y` on float64. -/
def ge (x y : F64) : Bool := le y x

/-- Go's `x < y` on float64. -/
def lt (x y : F64) : Bool := gt y x

/-- A positive normal number: sign bit clear, exponent field from 1 to 2046. -/
def posNormal (x : F64) : Prop := x.sign = false ∧ two52 ≤ x.mag ∧ x.mag < infMag

/-- The six digits after the decimal point, for a number below 10^6. -/
def frac6 (n : Nat) : String :=
  String.mk ((Nat.toDigits 10 (1000000 + n)).drop 1)

/-- The verb `%f` of package fmt on a float64: fixed notation with six
digits after the point, the decimal expansion rounded to nearest, ties to
even. -/
def fmtF (x : F64) : String :=
  if x.isNaN then "NaN"
  else if x.isInf then (if x.sign then "-Inf" else "+Inf")
  else
    let n : Nat :=
      if 0 ≤ x.expo then x.mant * 2 ^ x.expo.toNat * 1000000
      else rne (x.mant * 1000000) (-x.expo).toNat
    (if x.sign then "-" else "") ++ String.mk (Nat.toDigits 10 (n / 1000000)) ++ "."
      ++ frac6 (n % 1000000)

end F64

/-- The constant `math.Pi` converted to float64, as in `math.Pi * circle.radius`:
the binary64 nearest to π, `0x400921FB54442D18`. -/
def Pi : F64 := F64.ofBits 0x400921FB54442D18

/-! ## Values of type interface{}, function values, objects -/

/-- The address of a heap object, within the objects of its type. -/
abbrev Addr := Nat

/-- A pointer: nil or the address of an object. -/
abbrev Ptr := Option Addr

/-- A value of type `interface{}`: nil, or a dynamic type with its value.  Of a
value whose dynamic type is not one of the three pointer types of the file only
the name of the type, as the verb `%T` prints it, is kept. -/
inductive Any where
  | nil
  | shape (p : Ptr)
  | circle (p : Ptr)
  | square (p : Ptr)
  | other (typeName : String)
deriving DecidableEq

/-- The verb `%T` of package fmt: the dynamic type of the value. -/
def Any.typeName : Any → String
  | .nil => "<nil>"
  | .shape _ => "*main.Shape"
  | .circle _ => "*main.Circle"
  | .square _ => "*main.Square"
  | .other n => n

/-- Whether the dynamic type is `*Shape`, `*Circle` or `*Square`. -/
def Any.isShapeVariant : Any → Bool
  | .shape _ => true
  | .circle _ => true
  | .square _ => true
  | _ => false

/-- The ways a run stops without a result.  `wrongType` is the panic of the
file, with the message of its error; `nilDereference` is the run-time panic on
a nil pointer or a nil function value; `dangling` (an address with no object)
cannot arise in Go and `depth` is the exhaustion of the call-depth bound of
`callCmp`. -/
inductive Err where
  | wrongType (msg : String)
  | nilDereference
  | dangling
  | depth
deriving DecidableEq

/-- A value of type `func(this interface{}, area float64) bool`: one of the
three functions of the file of that type, or any other function, given by its
result (such a function neither reads nor writes the state). -/
inductive CmpFunc where
  | ShapeIsLargerThan
  | CircleIsLargerThan
  | SquareIsLargerThan
  | ext (f : Any → F64 → Except Err Bool)

/-- A value of type `func(this interface{}) float64`: one of the two functions
of the file of that type, or any other function, given by its result. -/
inductive AreaFunc where
  | CircleGetArea
  | SquareGetArea
  | ext (f : Any → Except Err F64)

/-- The struct `Shape`; the defaults are the zero values of `&Shape{}`. -/
structure Shape where
  instance_ : Any := .nil
  IsLargerThan : Option CmpFunc := none
  GetArea : Option AreaFunc := none

/-- The struct `Circle`; the defaults are the zero values of `&Circle{}`. -/
structure Circle where
  parent : Ptr := none
  radius : F64 := F64.zero false
  IsLargerThan : Option CmpFunc := none
  GetArea : Option AreaFunc := none

/-- The struct `Square`; the defaults are the zero values of `&Square{}`. -/
structure Square where
  parent : Ptr := none
  side : F64 := F64.zero false
  IsLargerThan : Option CmpFunc := none
  GetArea : Option AreaFunc := none

/-- The state of a run: the allocated objects of each type, an address being an
index, and the text written to standard output. -/
structure State where
  shapes : List Shape := []
  circles : List Circle := []
  squares : List Square := []
  stdout : String := ""

/-- A computation on the state that returns a value or stops with an `Err`. -/
abbrev M := StateT State (Except Err)

/-- The panic `panic(fmt.Errorf("wrong type passed %T", this))`. -/
def panicWrongType {α : Type} (this : Any) : M α :=
  throw (.wrongType ("wrong type passed " ++ this.typeName))

/-- The object at index `a`, if any. -/
def lookup {α : Type} (xs : List α) (p : Ptr) : Except Err α :=
  match p with
  | none => .error .nilDereference
  | some a =>
    match xs[a]? with
    | none => .error .dangling
    | some x => .ok x

/-- The allocation `&Shape{}`. -/
def allocShape : M Ptr := fun st =>
  .ok (some st.shapes.length, { st with shapes := st.shapes ++ [{}] })

/-- The allocation `&Circle{}`. -/
def allocCircle : M Ptr := fun st =>
  .ok (some st.circles.length, { st with circles := st.circles ++ [{}] })

/-- The allocation `&Square{}`. -/
def allocSquare : M Ptr := fun st =>
  .ok (some st.squares.length, { st with squares := st.squares ++ [{}] })

/-- The struct a `*Shape` points to. -/
def readShape (p : Ptr) : M Shape := fun st =>
  (lookup st.shapes p).map (fun x => (x, st))

/-- The struct a `*Circle` points to. -/
def readCircle (p : Ptr) : M Circle := fun st =>
  (lookup st.circles p).map (fun x => (x, st))

/-- The struct a `*Square` points to. -/
def readSquare (p : Ptr) : M Square := fun st =>
  (lookup st.squares p).map (fun x => (x, st))

/-- The objects once the one `p` points to has been replaced by its image
under `f`. -/
def update {α : Type} (xs : List α) (p : Ptr) (f : α → α) : Except Err (List α) :=
  match p with
  | none => .error .nilDereference
  | some a =>
    match xs[a]? with
    | none => .error .dangling
    | some x => .ok (xs.set a (f x))

/-- An assignment to a field of the struct a `*Shape` points to. -/
def writeShape (p : Ptr) (f : Shape → Shape) : M Unit := fun st =>
  (update st.shapes p f).map (fun xs => ((), { st with shapes := xs }))

/-- An assignment to a field of the struct a `*Circle` points to. -/
def writeCircle (p : Ptr) (f : Circle → Circle) : M Unit := fun st =>
  (update st.circles p f).map (fun xs => ((), { st with circles := xs }))

/-- An assignment to a field of the struct a `*Square` points to. -/
def writeSquare (p : Ptr) (f : Square → Square) : M Unit := fun st =>
  (update st.squares p f).map (fun xs => ((), { st with squares := xs }))

/-! ## The functions of oop.go -/

/-- The function `NewShape` (oop.go, lines 15-21). -/
def NewShape (instance_ : Any) : M Ptr := do
  let this ← allocShape
  writeShape this (fun s => { s with instance_ := instance_ })
  writeShape this (fun s => { s with IsLargerThan := some .ShapeIsLargerThan })
  return this

/-- The function `CircleGetArea` (lines 63-69). -/
def CircleGetArea (this : Any) : M F64 :=
  match this with
  | .circle p => do
    let circle ← readCircle p
    return F64.mul (F64.mul Pi circle.radius) circle.radius
  | _ => panicWrongType this

/-- The function `SquareGetArea` (lines 103-109). -/
def SquareGetArea (this : Any) : M F64 :=
  match this with
  | .square p => do
    let square ← readSquare p
    return F64.mul square.side square.side
  | _ => panicWrongType this

/-- A call of a function value of type `func(this interface{}) float64`. -/
def callArea (f : Option AreaFunc) (this : Any) : M F64 :=
  match f with
  | none => throw .nilDereference
  | some .CircleGetArea => CircleGetArea this
  | some .SquareGetArea => SquareGetArea this
  | some (.ext g) => liftM (g this)

/-- The function `ShapeIsLargerThan` (lines 23-29). -/
def ShapeIsLargerThan (this : Any) (area : F64) : M Bool :=
  match this with
  | .shape p => do
    let shape ← readShape p
    let a ← callArea shape.GetArea shape.instance_
    return F64.gt a area
  | _ => panicWrongType this

/-- The function `CircleIsLargerThan` (lines 55-61), the call through the field
of the parent being made by `call`. -/
def CircleIsLargerThanVia (call : Option CmpFunc → Any → F64 → M Bool)
    (this : Any) (area : F64) : M Bool :=
  match this with
  | .circle p => do
    let circle ← readCircle p
    let parent ← readShape circle.parent
    call parent.IsLargerThan (.shape circle.parent) area
  | _ => panicWrongType this

/-- The function `SquareIsLargerThan` (lines 95-101), the call through the field
of the parent being made by `call`. -/
def SquareIsLargerThanVia (call : Option CmpFunc → Any → F64 → M Bool)
    (this : Any) (area : F64) : M Bool :=
  match this with
  | .square p => do
    let square ← readSquare p
    let parent ← readShape square.parent
    call parent.IsLargerThan (.shape square.parent) area
  | _ => panicWrongType this

/-- A call of a function value of type `func(this interface{}, area float64) bool`,
with at most `depth` nested calls through function-valued fields. -/
def callCmp : Nat → Option CmpFunc → Any → F64 → M Bool
  | 0, _, _, _ => throw .depth
  | _ + 1, none, _, _ => throw .nilDereference
  | _ + 1, some .ShapeIsLargerThan, this, area => ShapeIsLargerThan this area
  | d + 1, some .CircleIsLargerThan, this, area => CircleIsLargerThanVia (callCmp d) this area
  | d + 1, some .SquareIsLargerThan, this, area => SquareIsLargerThanVia (callCmp d) this area
  | _ + 1, some (.ext g), this, area => liftM (g this area)

/-- The function `CircleIsLargerThan` (lines 55-61). -/
def CircleIsLargerThan (depth : Nat) (this : Any) (area : F64) : M Bool :=
  CircleIsLargerThanVia (callCmp depth) this area

/-- The function `SquareIsLargerThan` (lines 95-101). -/
def SquareIsLargerThan (depth : Nat) (this : Any) (area : F64) : M Bool :=
  SquareIsLargerThanVia (callCmp depth) this area

/-- The function `NewCircle` (lines 40-49). -/
def NewCircle (radius : F64) : M Ptr := do
  let this ← allocCircle
  let parent ← NewShape (.circle this)
  writeCircle this (fun c => { c with parent := parent })
  let circle ← readCircle this
  writeShape circle.parent (fun s => { s with GetArea := some .CircleGetArea })
  writeCircle this (fun c => { c with radius := radius })
  writeCircle this (fun c => { c with IsLargerThan := some .CircleIsLargerThan })
  writeCircle this (fun c => { c with GetArea := some .CircleGetArea })
  return this

/-- The function `NewSquare` (lines 80-89). -/
def NewSquare (side : F64) : M Ptr := do
  let this ← allocSquare
  let parent ← NewShape (.square this)
  writeSquare this (fun q => { q with parent := parent })
  let square ← readSquare this
  writeShape square.parent (fun s => { s with GetArea := some .SquareGetArea })
  writeSquare this (fun q => { q with side := side })
  writeSquare this (fun q => { q with IsLargerThan := some .SquareIsLargerThan })
  writeSquare this (fun q => { q with GetArea := some .SquareGetArea })
  return this

/-- The method `String` of `Circle` (lines 51-53). -/
def Circle.String (circle : Circle) : String :=
  "Circle (radius=" ++ F64.fmtF circle.radius ++ ")"

/-- The method `String` of `Square` (lines 91-93). -/
def Square.String (square : Square) : String :=
  "Square (side=" ++ F64.fmtF square.side ++ ")"

/-- The call `c.IsLargerThan(c, area)` on a `*Circle`. -/
def Circle.invokeIsLargerThan (depth : Nat) (c : Ptr) (area : F64) : M Bool := do
  let circle ← readCircle c
  callCmp depth circle.IsLargerThan (.circle c) area

/-- The call `c.GetArea(c)` on a `*Circle`. -/
def Circle.invokeGetArea (c : Ptr) : M F64 := do
  let circle ← readCircle c
  callArea circle.GetArea (.circle c)

/-- The call `q.IsLargerThan(q, area)` on a `*Square`. -/
def Square.invokeIsLargerThan (depth : Nat) (q : Ptr) (area : F64) : M Bool := do
  let square ← readSquare q
  callCmp depth square.IsLargerThan (.square q) area

/-- The call `q.GetArea(q)` on a `*Square`. -/
def Square.invokeGetArea (q : Ptr) : M F64 := do
  let square ← readSquare q
  callArea square.GetArea (.square q)

/-- The call `sh.IsLargerThan(sh, area)` on a `*Shape`. -/
def Shape.invokeIsLargerThan (depth : Nat) (sh : Ptr) (area : F64) : M Bool := do
  let shape ← readShape sh
  callCmp depth shape.IsLargerThan (.shape sh) area

/-- The call `c.IsLargerThan(this, area)`: the function held by the field of the
`*Circle` applied to any value `this`. -/
def Circle.invokeIsLargerThanOn (depth : Nat) (c : Ptr) (this : Any) (area : F64) :
    M Bool := do
  let circle ← readCircle c
  callCmp depth circle.IsLargerThan this area

/-- The call `q.IsLargerThan(this, area)`: the function held by the field of the
`*Square` applied to any value `this`. -/
def Square.invokeIsLargerThanOn (depth : Nat) (q : Ptr) (this : Any) (area : F64) :
    M Bool := do
  let square ← readSquare q
  callCmp depth square.IsLargerThan this area

/-- The assignment `c.GetArea = f` on a `*Circle`. -/
def Circle.setGetArea (c : Ptr) (f : Option AreaFunc) : M Unit :=
  writeCircle c (fun x => { x with GetArea := f })

/-- The assignment `c.parent.GetArea = f` on a `*Circle`. -/
def Circle.setParentGetArea (c : Ptr) (f : Option AreaFunc) : M Unit := do
  let circle ← readCircle c
  writeShape circle.parent (fun x => { x with GetArea := f })

/-- The assignment `q.GetArea = f` on a `*Square`. -/
def Square.setGetArea (q : Ptr) (f : Option AreaFunc) : M Unit :=
  writeSquare q (fun x => { x with GetArea := f })

/-- The assignment `q.parent.GetArea = f` on a `*Square`. -/
def Square.setParentGetArea (q : Ptr) (f : Option AreaFunc) : M Unit := do
  let square ← readSquare q
  writeShape square.parent (fun x => { x with GetArea := f })

/-- The verb `%t` of package fmt. -/
def fmtBool (b : Bool) : String := if b then "true" else "false"

/-- The verb `%v` on a `*Circle`: the pointer has the method `String` of its
element type, which fmt calls.  On a nil pointer the call panics, fmt recovers
the panic and prints `<nil>`. -/
def fmtCircle (c : Ptr) : M String :=
  match c with
  | none => pure "<nil>"
  | some _ => do
    let circle ← readCircle c
    return circle.String

/-- The verb `%v` on a `*Square`: as on a `*Circle`, `<nil>` on a nil pointer. -/
def fmtSquare (q : Ptr) : M String :=
  match q with
  | none => pure "<nil>"
  | some _ => do
    let square ← readSquare q
    return square.String

/-- The state once `s` has been written to standard output. -/
def State.write (st : State) (s : String) : State :=
  { st with stdout := st.stdout ++ s }

/-- Writing to standard output, as `fmt.Printf` does with the formatted text. -/
def print (s : String) : M Unit :=
  modify (fun st => st.write s)

/-- The function `main` (lines 111-119). -/
def main (depth : Nat) : M Unit := do
  let area := F64.ofNat 16
  let square ← NewSquare (F64.ofNat 5)
  let b ← Square.invokeIsLargerThan depth square area
  let v ← fmtSquare square
  print (v ++ " is larger than " ++ F64.fmtF area ++ ": " ++ fmtBool b ++ "\n")
  let circle ← NewCircle (F64.ofNat 2)
  let b ← Circle.invokeIsLargerThan depth circle area
  let v ← fmtCircle circle
  print (v ++ " is larger than " ++ F64.fmtF area ++ ": " ++ fmtBool b ++ "\n")

/-! ## The states the constructors and `main` leave -/

/-- The state `NewCircle radius` leaves: one more `Shape` and one more `Circle`. -/
def afterNewCircle (radius : F64) (st : State) : State :=
  { st with
    shapes := st.shapes ++
      [⟨.circle (some st.circles.length), some .ShapeIsLargerThan, some .CircleGetArea⟩]
    circles := st.circles ++
      [⟨some st.shapes.length, radius, some .CircleIsLargerThan, some .CircleGetArea⟩] }

/-- The state `NewSquare side` leaves: one more `Shape` and one more `Square`. -/
def afterNewSquare (side : F64) (st : State) : State :=
  { st with
    shapes := st.shapes ++
      [⟨.square (some st.squares.length), some .ShapeIsLargerThan, some .SquareGetArea⟩]
    squares := st.squares ++
      [⟨some st.shapes.length, side, some .SquareIsLargerThan, some .SquareGetArea⟩] }

/-- The state `main` leaves. -/
def afterMain (st : State) : State :=
  let area := F64.ofNat 16
  let st1 := afterNewSquare (F64.ofNat 5) st
  let st2 := st1.write ("Square (side=" ++ F64.fmtF (F64.ofNat 5) ++ ")" ++ " is larger than "
    ++ F64.fmtF area ++ ": "
    ++ fmtBool (F64.gt (F64.mul (F64.ofNat 5) (F64.ofNat 5)) area) ++ "\n")
  let st3 := afterNewCircle (F64.ofNat 2) st2
  st3.write ("Circle (radius=" ++ F64.fmtF (F64.ofNat 2) ++ ")" ++ " is larger than "
    ++ F64.fmtF area ++ ": "
    ++ fmtBool (F64.gt (F64.mul (F64.mul Pi (F64.ofNat 2)) (F64.ofNat 2)) area) ++ "\n")

/-! ## Computations that write nothing, and the states an assignment leaves -/

/-- A computation that writes nothing: when it returns, the state is the one it
started in. -/
def ReadOnly {α : Type} (m : M α) : Prop :=
  ∀ st x st2, m st = .ok (x, st2) → st2 = st

/-- The state `c.GetArea = f` leaves, on the circle `NewCircle radius` has just
built. -/
def afterCircleSetGetArea (radius : F64) (f : Option AreaFunc) (st : State) : State :=
  { afterNewCircle radius st with
    circles := st.circles ++ [⟨some st.shapes.length, radius, some .CircleIsLargerThan, f⟩] }

/-- The state `c.parent.GetArea = f` leaves, on the circle `NewCircle radius` has
just built. -/
def afterCircleSetParentGetArea (radius : F64) (f : Option AreaFunc) (st : State) : State :=
  { afterNewCircle radius st with
    shapes := st.shapes ++ [⟨.circle (some st.circles.length), some .ShapeIsLargerThan, f⟩] }

/-- The state `q.GetArea = f` leaves, on the square `NewSquare side` has just
built. -/
def afterSquareSetGetArea (side : F64) (f : Option AreaFunc) (st : State) : State :=
  { afterNewSquare side st with
    squares := st.squares ++ [⟨some st.shapes.length, side, some .SquareIsLargerThan, f⟩] }

/-- The state `q.parent.GetArea = f` leaves, on the square `NewSquare side` has
just built. -/
def afterSquareSetParentGetArea (side : F64) (f : Option AreaFunc) (st : State) : State :=
  { afterNewSquare side st with
    shapes := st.shapes ++ [⟨.square (some st.squares.length), some .ShapeIsLargerThan, f⟩] }

/-! ## float64: rounding and the accuracy of a product -/

namespace F64

theorem ilog2Aux_spec (fuel : Nat) : ∀ n : Nat, 0 < n → n ≤ fuel →
    2 ^ ilog2Aux fuel n ≤ n ∧ n < 2 ^ (ilog2Aux fuel n + 1) := by
  induction fuel with
  | zero => intro n h1 h2; omega
  | succ f ih =>
    intro n h1 h2
    unfold ilog2Aux
    by_cases h : n < 2
    · simp only [h, if_true]; omega
    · simp only [h, if_false]
      have h3 := ih (n / 2) (by omega) (by omega)
      rw [pow_succ, pow_succ]
      omega

theorem ilog2_spec (n : Nat) (h : 0 < n) : 2 ^ ilog2 n ≤ n ∧ n < 2 ^ (ilog2 n + 1) :=
  ilog2Aux_spec n n h le_rfl

/-- The result of `rne` is the quotient or its successor, and twice its distance
to the exact quotient is at most one. -/
theorem rne_spec (m sh : Nat) :
    m / 2 ^ sh ≤ rne m sh ∧ rne m sh ≤ m / 2 ^ sh + 1 ∧
    2 * (rne m sh * 2 ^ sh) ≤ 2 * m + 2 ^ sh ∧ 2 * m ≤ 2 * (rne m sh * 2 ^ sh) + 2 ^ sh := by
  have hp : 0 < 2 ^ sh := Nat.pow_pos (by norm_num)
  have hd := Nat.div_add_mod m (2 ^ sh)
  have hm := Nat.mod_lt m hp
  generalize hP : 2 ^ sh = P at *
  generalize hq : m / P = q at *
  generalize hr : m % P = r at *
  have hqP : P * q = q * P := Nat.mul_comm _ _
  unfold rne
  simp only [hP, hq, hr]
  split_ifs with hc
  · refine ⟨by omega, by omega, ?_, ?_⟩
    · rw [Nat.add_mul]; rcases hc with hc | hc <;> omega
    · rw [Nat.add_mul]; omega
  · refine ⟨by omega, by omega, by omega, ?_⟩
    by_cases h1 : P < 2 * r
    · exact absurd (Or.inl h1) hc
    · omega


theorem mant_bounds_of_normal (x : F64) (h1 : two52 ≤ x.mag) :
    two52 ≤ x.mant ∧ x.mant < 2 * two52 := by
  unfold mant expField two52 at *
  split_ifs with h <;> omega

theorem expo_bounds_of_normal (x : F64) (h1 : two52 ≤ x.mag) (h2 : x.mag < infMag) :
    -1074 ≤ x.expo ∧ x.expo ≤ 971 := by
  unfold expo expField two52 infMag at *
  split_ifs with h <;> omega

/-- Decoding the bits `k * 2^52 + q` assembled from a significand `q` in
`[2^52, 2^53]` and the exponent `k - 1074` of its last place. -/
theorem decode_pack (s : Bool) (k q : Nat) (hq1 : two52 ≤ q) (hq2 : q ≤ 2 * two52)
    (hk : k ≤ 2044) :
    (pack s (k * two52 + q)).sign = s ∧ two52 ≤ (pack s (k * two52 + q)).mag ∧
    (pack s (k * two52 + q)).mag < infMag ∧
    (k : Int) - 1074 ≤ (pack s (k * two52 + q)).expo ∧
    (pack s (k * two52 + q)).expo ≤ (k : Int) - 1073 ∧
    ((pack s (k * two52 + q)).mant : ℚ) * 2 ^ (pack s (k * two52 + q)).expo
      = (q : ℚ) * 2 ^ ((k : Int) - 1074) := by
  have hlt : k * two52 + q < infMag := by unfold two52 infMag at *; omega
  have hp : pack s (k * two52 + q) = ⟨s, k * two52 + q, by unfold two52 infMag at *; omega⟩ := by
    unfold pack; simp [hlt]
  rw [hp]
  refine ⟨rfl, ?_, hlt, ?_⟩
  · show two52 ≤ k * two52 + q
    omega
  · by_cases hq : q < 2 * two52
    · have hm : mant ⟨s, k * two52 + q, by unfold two52 infMag at *; omega⟩ = q := by
        unfold mant expField two52 at *; simp only []; split_ifs with h <;> omega
      have he : expo ⟨s, k * two52 + q, by unfold two52 infMag at *; omega⟩ = (k : Int) - 1074 := by
        unfold expo expField two52 at *; simp only []; split_ifs with h <;> omega
      rw [hm, he]
      exact ⟨le_rfl, by omega, rfl⟩
    · have hq3 : q = 2 * two52 := by omega
      have hm : mant ⟨s, k * two52 + q, by unfold two52 infMag at *; omega⟩ = two52 := by
        unfold mant expField two52 at *; simp only []; split_ifs with h <;> omega
      have he : expo ⟨s, k * two52 + q, by unfold two52 infMag at *; omega⟩ = (k : Int) - 1074 + 1 := by
        unfold expo expField two52 at *; simp only []; split_ifs with h <;> omega
      rw [hm, he]
      refine ⟨by omega, by omega, ?_⟩
      rw [zpow_add_one₀ (by norm_num : (2 : ℚ) ≠ 0), hq3]
      push_cast
      ring


theorem roundNE_normal (s : Bool) (m : Nat) (e : Int) (hm : 0 < m)
    (h1 : -1022 ≤ e + (ilog2 m : Int)) (h2 : e + (ilog2 m : Int) ≤ 1022) :
    (roundNE s m e).sign = s ∧ two52 ≤ (roundNE s m e).mag ∧ (roundNE s m e).mag < infMag ∧
    e + (ilog2 m : Int) - 52 ≤ (roundNE s m e).expo ∧
    (roundNE s m e).expo ≤ e + (ilog2 m : Int) - 51 ∧
    |((roundNE s m e).mant : ℚ) * 2 ^ (roundNE s m e).expo - (m : ℚ) * 2 ^ e|
      ≤ (m : ℚ) * 2 ^ e / 2 ^ 53 := by
  obtain ⟨hn1, hn2⟩ := ilog2_spec m hm
  generalize hn : ilog2 m = n at *
  have hulp : max (e + (n : Int) - 52) (-1074) = e + n - 52 := by omega
  have h2ne : (2 : ℚ) ≠ 0 := by norm_num
  have he0 : (0 : ℚ) < 2 ^ e := zpow_pos (by norm_num) e
  -- the significand kept and its distance to the exact one
  obtain ⟨q, hq, hq1, hq2, herr⟩ : ∃ q : Nat,
      roundNE s m e = pack s ((e + (n : Int) - 52 + 1074).toNat * two52 + q) ∧
      two52 ≤ q ∧ q ≤ 2 * two52 ∧
      |(q : ℚ) * 2 ^ (e + (n : Int) - 52) - (m : ℚ) * 2 ^ e| ≤ (m : ℚ) * 2 ^ e / 2 ^ 53 := by
    by_cases hc : e + (n : Int) - 52 ≤ e
    · refine ⟨m * 2 ^ (52 - n), ?_, ?_, ?_, ?_⟩
      · unfold roundNE
        have ht : (e - (e + (n : Int) - 52)).toNat = 52 - n := by omega
        simp only [(Nat.ne_of_gt hm), if_false, hn, hulp, hc, if_true, ht]
      · have : 2 ^ n * 2 ^ (52 - n) = two52 := by
          rw [← pow_add]; have : n + (52 - n) = 52 := by omega
          rw [this]; rfl
        rw [← this]; exact Nat.mul_le_mul_right _ hn1
      · have : 2 ^ (n + 1) * 2 ^ (52 - n) = 2 * two52 := by
          rw [← pow_add]; have : n + 1 + (52 - n) = 53 := by omega
          rw [this]; rfl
        rw [← this]; exact Nat.mul_le_mul_right _ hn2.le
      · have hz : (e + (n : Int) - 52) = e + (-((52 - n : Nat) : Int)) := by omega
        have : ((m * 2 ^ (52 - n) : Nat) : ℚ) * 2 ^ (e + (n : Int) - 52) = (m : ℚ) * 2 ^ e := by
          rw [hz, zpow_add₀ h2ne, zpow_neg, zpow_natCast]
          push_cast
          field_simp
          ring
        rw [this, sub_self, abs_zero]
        positivity
    · have hsh : (e + (n : Int) - 52 - e).toNat = n - 52 := by omega
      have hn52 : 52 < n := by omega
      obtain ⟨r1, r2, r3, r4⟩ := rne_spec m (n - 52)
      have hpow : 2 ^ (n - 52) * two52 = 2 ^ n := by
        have : two52 = 2 ^ 52 := rfl
        rw [this, ← pow_add]; congr 1; omega
      have hp0 : 0 < 2 ^ (n - 52) := Nat.pow_pos (by norm_num)
      refine ⟨rne m (n - 52), ?_, ?_, ?_, ?_⟩
      · unfold roundNE
        simp only [(Nat.ne_of_gt hm), if_false, hn, hulp, hc, hsh]
      · refine le_trans ?_ r1
        rw [Nat.le_div_iff_mul_le hp0, Nat.mul_comm, hpow]
        exact hn1
      · have : m / 2 ^ (n - 52) < 2 * two52 := by
          rw [Nat.div_lt_iff_lt_mul hp0]
          have : 2 * two52 * 2 ^ (n - 52) = 2 ^ (n + 1) := by
            rw [pow_succ, ← hpow]; ring
          rw [this]; exact hn2
        omega
      · have hz : (e + (n : Int) - 52) = e + ((n - 52 : Nat) : Int) := by omega
        have e3 : (2 : ℚ) * ((rne m (n - 52) : ℚ) * 2 ^ (n - 52)) ≤ 2 * m + 2 ^ (n - 52) := by
          exact_mod_cast r3
        have e4 : (2 : ℚ) * m ≤ 2 * ((rne m (n - 52) : ℚ) * 2 ^ (n - 52)) + 2 ^ (n - 52) := by
          exact_mod_cast r4
        have e5 : (2 : ℚ) ^ (n - 52) * 2 ^ 52 ≤ m := by
          have : 2 ^ (n - 52) * 2 ^ 52 ≤ m := by
            have h52 : two52 = 2 ^ 52 := rfl
            rw [← h52, hpow]; exact hn1
          exact_mod_cast this
        rw [hz, zpow_add₀ h2ne, zpow_natCast]
        have : (rne m (n - 52) : ℚ) * (2 ^ e * 2 ^ (n - 52)) - (m : ℚ) * 2 ^ e
            = ((rne m (n - 52) : ℚ) * 2 ^ (n - 52) - m) * 2 ^ e := by ring
        rw [this, abs_mul, abs_of_pos he0]
        have : (m : ℚ) * 2 ^ e / 2 ^ 53 = (m : ℚ) / 2 ^ 53 * 2 ^ e := by ring
        rw [this]
        apply mul_le_mul_of_nonneg_right _ he0.le
        rw [abs_le]
        constructor
        · have : (m : ℚ) / 2 ^ 53 ≥ 2 ^ (n - 52) / 2 := by
            rw [ge_iff_le, div_le_div_iff₀ (by norm_num) (by norm_num)]
            nlinarith
          linarith
        · have : (m : ℚ) / 2 ^ 53 ≥ 2 ^ (n - 52) / 2 := by
            rw [ge_iff_le, div_le_div_iff₀ (by norm_num) (by norm_num)]
            nlinarith
          linarith
  have hk : (e + (n : Int) - 52 + 1074).toNat ≤ 2044 := by omega
  have hkz : (((e + (n : Int) - 52 + 1074).toNat : Nat) : Int) - 1074 = e + n - 52 := by omega
  obtain ⟨d1, d2, d3, d4, d5, d6⟩ := decode_pack s _ q hq1 hq2 hk
  rw [hq]
  rw [hkz] at d4 d6
  refine ⟨d1, d2, d3, d4, by omega, ?_⟩
  rw [d6]; exact herr


theorem toRat_of_pos (x : F64) (h : x.sign = false) :
    x.toRat = (x.mant : ℚ) * 2 ^ x.expo := by
  simp [toRat, h]

theorem toRat_pos_of_posNormal (x : F64) (hx : posNormal x) : 0 < x.toRat := by
  rw [toRat_of_pos x hx.1]
  have := (mant_bounds_of_normal x hx.2.1).1
  have h0 : 0 < x.mant := by unfold two52 at this; omega
  have : (0 : ℚ) < x.mant := by exact_mod_cast h0
  have h2 : (0 : ℚ) < 2 ^ x.expo := zpow_pos (by norm_num) _
  positivity

/-- The product of two positive normal numbers whose exact product is within
the normal range: it is a positive normal number within relative distance
`2^-53` of the exact product. -/
theorem mul_posNormal (x y : F64) (hx : posNormal x) (hy : posNormal y)
    (h1 : -1126 ≤ x.expo + y.expo) (h2 : x.expo + y.expo ≤ 917) :
    posNormal (mul x y) ∧ x.expo + y.expo + 52 ≤ (mul x y).expo ∧
    (mul x y).expo ≤ x.expo + y.expo + 54 ∧
    |(mul x y).toRat - x.toRat * y.toRat| ≤ x.toRat * y.toRat / 2 ^ 53 := by
  obtain ⟨hxs, hx1, hx2⟩ := hx
  obtain ⟨hys, hy1, hy2⟩ := hy
  obtain ⟨mx1, mx2⟩ := mant_bounds_of_normal x hx1
  obtain ⟨my1, my2⟩ := mant_bounds_of_normal y hy1
  have hmul : mul x y = roundNE false (x.mant * y.mant) (x.expo + y.expo) := by
    unfold mul isNaN isInf
    have a1 : ¬ infMag < x.mag := by omega
    have a2 : ¬ infMag < y.mag := by omega
    have a3 : ¬ x.mag = infMag := by omega
    have a4 : ¬ y.mag = infMag := by omega
    simp [a1, a2, a3, a4, hxs, hys]
  have hlo : 2 ^ 104 ≤ x.mant * y.mant := by
    have : two52 * two52 ≤ x.mant * y.mant := Nat.mul_le_mul mx1 my1
    have h : two52 * two52 = 2 ^ 104 := by unfold two52; norm_num
    omega
  have hhi : x.mant * y.mant < 2 ^ 106 := by
    have : x.mant * y.mant < (2 * two52) * (2 * two52) :=
      Nat.mul_lt_mul_of_lt_of_lt mx2 my2
    have h : (2 * two52) * (2 * two52) = 2 ^ 106 := by unfold two52; norm_num
    omega
  have hpos : 0 < x.mant * y.mant := lt_of_lt_of_le (by norm_num) hlo
  obtain ⟨l1, l2⟩ := ilog2_spec _ hpos
  have hn1 : 104 ≤ ilog2 (x.mant * y.mant) := by
    have : 2 ^ 104 < 2 ^ (ilog2 (x.mant * y.mant) + 1) := lt_of_le_of_lt hlo l2
    have := (Nat.pow_lt_pow_iff_right (by norm_num : 1 < 2)).mp this
    omega
  have hn2 : ilog2 (x.mant * y.mant) ≤ 105 := by
    have : 2 ^ ilog2 (x.mant * y.mant) < 2 ^ 106 := lt_of_le_of_lt l1 hhi
    have := (Nat.pow_lt_pow_iff_right (by norm_num : 1 < 2)).mp this
    omega
  obtain ⟨r1, r2, r3, r4, r5, r6⟩ := roundNE_normal false (x.mant * y.mant) (x.expo + y.expo)
    hpos (by omega) (by omega)
  rw [hmul]
  refine ⟨⟨r1, r2, r3⟩, by omega, by omega, ?_⟩
  rw [toRat_of_pos _ r1, toRat_of_pos x hxs, toRat_of_pos y hys]
  have e : (x.mant : ℚ) * 2 ^ x.expo * ((y.mant : ℚ) * 2 ^ y.expo)
      = ((x.mant * y.mant : Nat) : ℚ) * 2 ^ (x.expo + y.expo) := by
    rw [zpow_add₀ (by norm_num : (2 : ℚ) ≠ 0)]; push_cast; ring
  rw [e]; exact r6


theorem two52_cast : ((two52 : Nat) : ℚ) = 2 ^ (52 : Int) := by
  unfold two52; norm_num

/-- A finite number between `2^-500` and `2^500` is a positive normal number,
and the exponent of its last place is between -553 and 448. -/
theorem posNormal_of_toRat (r : F64) (hfin : r.isFinite = true)
    (hlo : (2 : ℚ) ^ (-500 : Int) ≤ r.toRat) (hhi : r.toRat ≤ (2 : ℚ) ^ (500 : Int)) :
    posNormal r ∧ -553 ≤ r.expo ∧ r.expo ≤ 448 := by
  have hmag : r.mag < infMag := by simpa [isFinite] using hfin
  have h2 : (1 : ℚ) < 2 := by norm_num
  have h2ne : (2 : ℚ) ≠ 0 := by norm_num
  have hpow : ∀ z : Int, (0 : ℚ) < 2 ^ z := fun z => zpow_pos (by norm_num) z
  have hsign : r.sign = false := by
    by_contra hs
    have hs : r.sign = true := by simpa using hs
    have : r.toRat ≤ 0 := by
      simp only [toRat, hs, if_true]
      have := hpow r.expo
      have hm : (0 : ℚ) ≤ r.mant := Nat.cast_nonneg _
      nlinarith [mul_nonneg hm this.le]
    linarith [hpow (-500)]
  rw [toRat_of_pos r hsign] at hlo hhi
  have hnorm : two52 ≤ r.mag := by
    by_contra hsub
    have hsub : r.mag < two52 := by omega
    have hm : r.mant < two52 := by
      unfold mant expField two52 at *; split_ifs with h <;> omega
    have he : r.expo = -1074 := by
      unfold expo expField two52 at *; split_ifs with h <;> omega
    rw [he] at hlo
    have hm2 : (r.mant : ℚ) < 2 ^ (52 : Int) := by
      rw [← two52_cast]; exact_mod_cast hm
    have : (r.mant : ℚ) * 2 ^ (-1074 : Int) < 2 ^ (52 : Int) * 2 ^ (-1074 : Int) :=
      mul_lt_mul_of_pos_right hm2 (hpow _)
    rw [← zpow_add₀ h2ne] at this
    have h3 : (2 : ℚ) ^ ((52 : Int) + -1074) ≤ 2 ^ (-500 : Int) :=
      zpow_le_zpow_right₀ h2.le (by norm_num)
    linarith
  obtain ⟨m1, m2⟩ := mant_bounds_of_normal r hnorm
  have hm1 : (2 : ℚ) ^ (52 : Int) ≤ r.mant := by
    rw [← two52_cast]; exact_mod_cast m1
  have hm2 : (r.mant : ℚ) < 2 ^ (53 : Int) := by
    have : ((2 * two52 : Nat) : ℚ) = 2 ^ (53 : Int) := by unfold two52; norm_num
    rw [← this]; exact_mod_cast m2
  refine ⟨⟨hsign, hnorm, hmag⟩, ?_, ?_⟩
  · by_contra hc
    have hc : r.expo ≤ -554 := by omega
    have : (r.mant : ℚ) * 2 ^ r.expo < 2 ^ (53 : Int) * 2 ^ r.expo :=
      mul_lt_mul_of_pos_right hm2 (hpow _)
    rw [← zpow_add₀ h2ne] at this
    have h3 : (2 : ℚ) ^ ((53 : Int) + r.expo) ≤ 2 ^ (-500 : Int) :=
      zpow_le_zpow_right₀ h2.le (by omega)
    linarith
  · by_contra hc
    have hc : 449 ≤ r.expo := by omega
    have : (2 : ℚ) ^ (52 : Int) * 2 ^ r.expo ≤ (r.mant : ℚ) * 2 ^ r.expo :=
      mul_le_mul_of_nonneg_right hm1 (hpow _).le
    rw [← zpow_add₀ h2ne] at this
    have h3 : (2 : ℚ) ^ (500 : Int) < 2 ^ ((52 : Int) + r.expo) :=
      zpow_lt_zpow_right₀ h2 (by omega)
    linarith

end F64

theorem Pi_posNormal : F64.posNormal Pi := by
  unfold F64.posNormal; decide

theorem Pi_expo : Pi.expo = -51 := by decide

theorem Pi_toRat : Pi.toRat = 884279719003555 / 281474976710656 := by
  rw [F64.toRat_of_pos Pi (by decide)]
  have h1 : Pi.mant = 7074237752028440 := by decide
  rw [h1, Pi_expo]
  norm_num


/-- The float64 `Pi` is below π by less than `1.3e-16`. -/
theorem Pi_close : ((Pi.toRat : ℚ) : ℝ) ≤ Real.pi ∧
    (1 - 1 / 10 ^ 16) * Real.pi ≤ ((Pi.toRat : ℚ) : ℝ) := by
  have h1 := Real.pi_gt_d20
  have h2 := Real.pi_lt_d20
  rw [Pi_toRat]
  push_cast
  constructor
  · norm_num at h1 ⊢; linarith
  · norm_num at h2 ⊢; linarith

/-- The area `math.Pi * r * r` computed in float64, for a finite radius between
`2^-500` and `2^500`: a finite number within relative distance `1e-9` of π r². -/
theorem circle_area_accurate (r : F64) (hfin : r.isFinite = true)
    (hlo : (2 : ℚ) ^ (-500 : Int) ≤ r.toRat) (hhi : r.toRat ≤ (2 : ℚ) ^ (500 : Int)) :
    (F64.mul (F64.mul Pi r) r).isFinite = true ∧
    |(((F64.mul (F64.mul Pi r) r).toRat : ℚ) : ℝ) - Real.pi * ((r.toRat : ℚ) : ℝ) ^ 2|
      ≤ 1 / 10 ^ 9 * (Real.pi * ((r.toRat : ℚ) : ℝ) ^ 2) := by
  obtain ⟨hr, e1, e2⟩ := F64.posNormal_of_toRat r hfin hlo hhi
  obtain ⟨hz, z1, z2, z3⟩ := F64.mul_posNormal Pi r Pi_posNormal hr
    (by rw [Pi_expo]; omega) (by rw [Pi_expo]; omega)
  rw [Pi_expo] at z1 z2
  obtain ⟨ha, a1, a2, a3⟩ := F64.mul_posNormal (F64.mul Pi r) r hz hr (by omega) (by omega)
  refine ⟨by simpa [F64.isFinite] using ha.2.2, ?_⟩
  have hR : (0 : ℝ) < ((r.toRat : ℚ) : ℝ) := by
    exact_mod_cast F64.toRat_pos_of_posNormal r hr
  have z3R : |(((F64.mul Pi r).toRat : ℚ) : ℝ) - ((Pi.toRat : ℚ) : ℝ) * ((r.toRat : ℚ) : ℝ)|
      ≤ ((Pi.toRat : ℚ) : ℝ) * ((r.toRat : ℚ) : ℝ) / 2 ^ 53 := by exact_mod_cast z3
  have a3R : |(((F64.mul (F64.mul Pi r) r).toRat : ℚ) : ℝ)
        - (((F64.mul Pi r).toRat : ℚ) : ℝ) * ((r.toRat : ℚ) : ℝ)|
      ≤ (((F64.mul Pi r).toRat : ℚ) : ℝ) * ((r.toRat : ℚ) : ℝ) / 2 ^ 53 := by exact_mod_cast a3
  obtain ⟨p1, p2⟩ := Pi_close
  generalize (((F64.mul (F64.mul Pi r) r).toRat : ℚ) : ℝ) = A at *
  generalize (((F64.mul Pi r).toRat : ℚ) : ℝ) = Z at *
  generalize ((Pi.toRat : ℚ) : ℝ) = P at *
  generalize ((r.toRat : ℚ) : ℝ) = R at *
  have hR2 : 0 ≤ R ^ 2 := by positivity
  rw [abs_le] at z3R a3R ⊢
  obtain ⟨zl, zu⟩ := z3R
  obtain ⟨al, au⟩ := a3R
  -- with w = P R², x = π R² and y = Z R, what is left is linear
  have w1 : P * R ^ 2 ≤ Real.pi * R ^ 2 := mul_le_mul_of_nonneg_right p1 hR2
  have w2 : (1 - 1 / 10 ^ 16) * Real.pi * R ^ 2 ≤ P * R ^ 2 :=
    mul_le_mul_of_nonneg_right p2 hR2
  have y1 := mul_le_mul_of_nonneg_right zl hR.le
  have y2 := mul_le_mul_of_nonneg_right zu hR.le
  have hy1 : -(P * R ^ 2 / 2 ^ 53) ≤ Z * R - P * R ^ 2 := by
    have e : -(P * R / 2 ^ 53) * R = -(P * R ^ 2 / 2 ^ 53) := by ring
    have e2 : (Z - P * R) * R = Z * R - P * R ^ 2 := by ring
    rw [e, e2] at y1; exact y1
  have hy2 : Z * R - P * R ^ 2 ≤ P * R ^ 2 / 2 ^ 53 := by
    have e : P * R / 2 ^ 53 * R = P * R ^ 2 / 2 ^ 53 := by ring
    have e2 : (Z - P * R) * R = Z * R - P * R ^ 2 := by ring
    rw [e, e2] at y2; exact y2
  have hx : 0 < Real.pi * R ^ 2 := by positivity
  generalize Z * R = y at *
  generalize P * R ^ 2 = w at *
  have hxe : (1 - 1 / 10 ^ 16) * Real.pi * R ^ 2 = (1 - 1 / 10 ^ 16) * (Real.pi * R ^ 2) := by
    ring
  rw [hxe] at w2
  generalize Real.pi * R ^ 2 = x at *
  constructor
  · norm_num at *; linarith
  · norm_num at *; linarith

/-- The area `s * s` computed in float64, for a finite side between `2^-500`
and `2^500`: a finite number within relative distance `2^-53` of the real
square of `s`. -/
theorem square_area_accurate (s : F64) (hfin : s.isFinite = true)
    (hlo : (2 : ℚ) ^ (-500 : Int) ≤ s.toRat) (hhi : s.toRat ≤ (2 : ℚ) ^ (500 : Int)) :
    (F64.mul s s).isFinite = true ∧
    |(F64.mul s s).toRat - s.toRat ^ 2| ≤ s.toRat ^ 2 / 2 ^ 53 := by
  obtain ⟨hs, e1, e2⟩ := F64.posNormal_of_toRat s hfin hlo hhi
  obtain ⟨ha, _, _, a3⟩ := F64.mul_posNormal s s hs hs (by omega) (by omega)
  refine ⟨by simpa [F64.isFinite] using ha.2.2, ?_⟩
  rw [pow_two]; exact a3

/-! ## Running the constructors and the calls on a fresh shape -/

theorem NewShape_run (i : Any) (st : State) :
    NewShape i st = .ok (some st.shapes.length,
      { st with shapes := st.shapes ++ [⟨i, some .ShapeIsLargerThan, none⟩] }) := by
  simp [NewShape, allocShape, writeShape, bind, StateT.bind, Except.bind, Except.map, lookup, update,
    pure, StateT.pure, Except.pure]

theorem NewCircle_run (r : F64) (st : State) :
    NewCircle r st = .ok (some st.circles.length, afterNewCircle r st) := by
  simp [NewCircle, NewShape_run, allocCircle, writeCircle, writeShape, readCircle, bind,
    StateT.bind, Except.bind, Except.map, lookup, update, pure, StateT.pure, Except.pure, afterNewCircle]

theorem NewSquare_run (s : F64) (st : State) :
    NewSquare s st = .ok (some st.squares.length, afterNewSquare s st) := by
  simp [NewSquare, NewShape_run, allocSquare, writeSquare, writeShape, readSquare, bind,
    StateT.bind, Except.bind, Except.map, lookup, update, pure, StateT.pure, Except.pure, afterNewSquare]

theorem readCircle_new (r : F64) (st : State) :
    readCircle (some st.circles.length) (afterNewCircle r st)
      = .ok (⟨some st.shapes.length, r, some .CircleIsLargerThan, some .CircleGetArea⟩,
          afterNewCircle r st) := by
  simp [readCircle, Except.map, lookup, update, afterNewCircle]

theorem readSquare_new (s : F64) (st : State) :
    readSquare (some st.squares.length) (afterNewSquare s st)
      = .ok (⟨some st.shapes.length, s, some .SquareIsLargerThan, some .SquareGetArea⟩,
          afterNewSquare s st) := by
  simp [readSquare, Except.map, lookup, update, afterNewSquare]

theorem readShape_newCircle (r : F64) (st : State) :
    readShape (some st.shapes.length) (afterNewCircle r st)
      = .ok (⟨.circle (some st.circles.length), some .ShapeIsLargerThan, some .CircleGetArea⟩,
          afterNewCircle r st) := by
  simp [readShape, Except.map, lookup, update, afterNewCircle]

theorem readShape_newSquare (s : F64) (st : State) :
    readShape (some st.shapes.length) (afterNewSquare s st)
      = .ok (⟨.square (some st.squares.length), some .ShapeIsLargerThan, some .SquareGetArea⟩,
          afterNewSquare s st) := by
  simp [readShape, Except.map, lookup, update, afterNewSquare]

theorem Circle_invokeGetArea_new (r : F64) (st : State) :
    Circle.invokeGetArea (some st.circles.length) (afterNewCircle r st)
      = .ok (F64.mul (F64.mul Pi r) r, afterNewCircle r st) := by
  simp [Circle.invokeGetArea, callArea, CircleGetArea, readCircle, bind,
    StateT.bind, Except.bind, Except.map, lookup, update, pure, StateT.pure, Except.pure, afterNewCircle]

theorem Square_invokeGetArea_new (s : F64) (st : State) :
    Square.invokeGetArea (some st.squares.length) (afterNewSquare s st)
      = .ok (F64.mul s s, afterNewSquare s st) := by
  simp [Square.invokeGetArea, callArea, SquareGetArea, readSquare, bind,
    StateT.bind, Except.bind, Except.map, lookup, update, pure, StateT.pure, Except.pure, afterNewSquare]

theorem ShapeIsLargerThan_newCircle (r t : F64) (st : State) :
    ShapeIsLargerThan (.shape (some st.shapes.length)) t (afterNewCircle r st)
      = .ok (F64.gt (F64.mul (F64.mul Pi r) r) t, afterNewCircle r st) := by
  simp [ShapeIsLargerThan, callArea, CircleGetArea, readCircle, readShape, bind,
    StateT.bind, Except.bind, Except.map, lookup, update, pure, StateT.pure, Except.pure, afterNewCircle]

theorem ShapeIsLargerThan_newSquare (s t : F64) (st : State) :
    ShapeIsLargerThan (.shape (some st.shapes.length)) t (afterNewSquare s st)
      = .ok (F64.gt (F64.mul s s) t, afterNewSquare s st) := by
  simp [ShapeIsLargerThan, callArea, SquareGetArea, readSquare, readShape, bind,
    StateT.bind, Except.bind, Except.map, lookup, update, pure, StateT.pure, Except.pure, afterNewSquare]

theorem Circle_invokeIsLargerThan_new (r t : F64) (st : State) (depth : Nat) :
    Circle.invokeIsLargerThan (depth + 2) (some st.circles.length) t (afterNewCircle r st)
      = .ok (F64.gt (F64.mul (F64.mul Pi r) r) t, afterNewCircle r st) := by
  simp [Circle.invokeIsLargerThan, callCmp, CircleIsLargerThanVia, ShapeIsLargerThan, callArea,
    CircleGetArea, readCircle, readShape, bind, StateT.bind, Except.bind, Except.map, lookup, update,
    pure, StateT.pure, Except.pure, afterNewCircle]

theorem Square_invokeIsLargerThan_new (s t : F64) (st : State) (depth : Nat) :
    Square.invokeIsLargerThan (depth + 2) (some st.squares.length) t (afterNewSquare s st)
      = .ok (F64.gt (F64.mul s s) t, afterNewSquare s st) := by
  simp [Square.invokeIsLargerThan, callCmp, SquareIsLargerThanVia, ShapeIsLargerThan, callArea,
    SquareGetArea, readSquare, readShape, bind, StateT.bind, Except.bind, Except.map, lookup, update,
    pure, StateT.pure, Except.pure, afterNewSquare]

theorem fmtCircle_new (r : F64) (st : State) :
    fmtCircle (some st.circles.length) (afterNewCircle r st)
      = .ok ("Circle (radius=" ++ F64.fmtF r ++ ")", afterNewCircle r st) := by
  simp [fmtCircle, Circle.String, readCircle, bind,
    StateT.bind, Except.bind, Except.map, lookup, update, pure, StateT.pure, Except.pure, afterNewCircle]

theorem fmtSquare_new (s : F64) (st : State) :
    fmtSquare (some st.squares.length) (afterNewSquare s st)
      = .ok ("Square (side=" ++ F64.fmtF s ++ ")", afterNewSquare s st) := by
  simp [fmtSquare, Square.String, readSquare, bind,
    StateT.bind, Except.bind, Except.map, lookup, update, pure, StateT.pure, Except.pure, afterNewSquare]

theorem main_run (st : State) (depth : Nat) :
    main (depth + 2) st = .ok ((), afterMain st) := by
  simp only [main, bind, StateT.bind, NewSquare_run, Except.bind, Square_invokeIsLargerThan_new,
    fmtSquare_new, NewCircle_run, Circle_invokeIsLargerThan_new, fmtCircle_new, print, modify,
    modifyGet, MonadStateOf.modifyGet, StateT.modifyGet, pure, Except.pure]
  rfl

set_option maxRecDepth 100000 in
theorem afterMain_stdout :
    (afterMain {}).stdout = "Square (side=5.000000) is larger than 16.000000: true\n"
      ++ "Circle (radius=2.000000) is larger than 16.000000: false\n" := by
  decide!

/-! ## float64: known products and formats -/

set_option maxRecDepth 100000 in
/-- Products and `%f` texts of known float64 values: `0.1 * 0.1`, an overflow,
two ties in the subnormal range, the product of the largest subnormal by 2, a
tie at the sixth decimal and a large integer. -/
theorem F64_known_values :
    F64.mul (F64.ofBits 0x3FB999999999999A) (F64.ofBits 0x3FB999999999999A)
      = F64.ofBits 0x3F847AE147AE147C ∧
    F64.mul (F64.ofBits 0x7FEFFFFFFFFFFFFF) (F64.ofBits 0x3FF0000000000001) = F64.inf false ∧
    F64.mul (F64.ofBits 0x0000000000000001) (F64.ofBits 0x3FE0000000000000) = F64.zero false ∧
    F64.mul (F64.ofBits 0x0000000000000003) (F64.ofBits 0x3FE0000000000000)
      = F64.ofBits 0x0000000000000002 ∧
    F64.mul (F64.ofBits 0x000FFFFFFFFFFFFF) (F64.ofBits 0x4000000000000000)
      = F64.ofBits 0x001FFFFFFFFFFFFE ∧
    F64.fmtF (F64.ofBits 0x3FB999999999999A) = "0.100000" ∧
    F64.fmtF (F64.ofBits 0x3F80000000000000) = "0.007812" ∧
    F64.fmtF (F64.ofBits 0x44B52D02C7E14AF6) = "99999999999999991611392.000000" ∧
    F64.fmtF (F64.ofBits 0x8000000000000000) = "-0.000000" := by
  decide!

/-! ## The constants of `main` -/

set_option maxRecDepth 100000 in
theorem ofNat_two_toRat : (F64.ofNat 2).toRat = 2 := by
  rw [F64.toRat_of_pos _ (by decide)]
  have h1 : (F64.ofNat 2).mant = two52 := by decide
  have h2 : (F64.ofNat 2).expo = -51 := by decide
  rw [h1, h2, F64.two52_cast, ← zpow_add₀ (by norm_num : (2 : ℚ) ≠ 0)]
  norm_num

set_option maxRecDepth 100000 in
theorem ofNat_five_toRat : (F64.ofNat 5).toRat = 5 := by
  rw [F64.toRat_of_pos _ (by decide)]
  have h1 : (F64.ofNat 5).mant = 5 * 2 ^ 50 := by decide
  have h2 : (F64.ofNat 5).expo = -50 := by decide
  rw [h1, h2]
  norm_num

set_option maxRecDepth 100000 in
theorem ofNat_sixteen_toRat : (F64.ofNat 16).toRat = 16 := by
  rw [F64.toRat_of_pos _ (by decide)]
  have h1 : (F64.ofNat 16).mant = two52 := by decide
  have h2 : (F64.ofNat 16).expo = -48 := by decide
  rw [h1, h2, F64.two52_cast, ← zpow_add₀ (by norm_num : (2 : ℚ) ≠ 0)]
  norm_num

set_option maxRecDepth 100000 in
theorem square_five_area : F64.mul (F64.ofNat 5) (F64.ofNat 5) = F64.ofNat 25 := by
  decide!

set_option maxRecDepth 100000 in
theorem ofNat_twentyfive_toRat : (F64.ofNat 25).toRat = 25 := by
  rw [F64.toRat_of_pos _ (by decide)]
  have h1 : (F64.ofNat 25).mant = 25 * 2 ^ 48 := by decide
  have h2 : (F64.ofNat 25).expo = -48 := by decide
  rw [h1, h2]
  norm_num

set_option maxRecDepth 100000 in
theorem circle_two_area :
    F64.mul (F64.mul Pi (F64.ofNat 2)) (F64.ofNat 2) = F64.ofBits 0x402921FB54442D18 := by
  decide!

theorem circle_two_area_toRat :
    (F64.ofBits 0x402921FB54442D18).toRat = 884279719003555 / 70368744177664 := by
  rw [F64.toRat_of_pos _ (by decide)]
  have h1 : (F64.ofBits 0x402921FB54442D18).mant = 7074237752028440 := by decide
  have h2 : (F64.ofBits 0x402921FB54442D18).expo = -49 := by decide
  rw [h1, h2]
  norm_num

/-- The float64 `Pi` is the binary64 nearest to the constant `math.Pi`: it is
within half a unit in the last place (`2^-52`) of it. -/
theorem Pi_nearest :
    |Pi.toRat - 3.14159265358979323846264338327950288419716939937510582097494459|
      < 1 / 2 ^ 52 := by
  rw [Pi_toRat, abs_lt]
  constructor <;> norm_num

theorem gt_false_of_eq (a t : F64) (h : F64.eq a t = true ∨ a = t) : F64.gt a t = false := by
  rcases h with h | h
  · simp only [F64.eq, Bool.and_eq_true, decide_eq_true_eq] at h
    simp [F64.gt, h.2]
  · subst h
    simp [F64.gt]

/-! ## The comparison and the area of a constructed shape -/

/-- C1: for every circle built by `NewCircle(r)` and every square built by
`NewSquare(s)`, in any state and for every threshold `t`, the call
`x.IsLargerThan(x, t)` returns, and what it returns is true exactly when the
area `x.GetArea(x)` returns is greater than `t`. -/
theorem isLargerThan_eq_area_gt (st : State) (r s t : F64) (depth : Nat) :
    (∃ c st1 a, NewCircle r st = .ok (c, st1) ∧
      Circle.invokeGetArea c st1 = .ok (a, st1) ∧
      Circle.invokeIsLargerThan (depth + 2) c t st1 = .ok (F64.gt a t, st1)) ∧
    (∃ q st1 a, NewSquare s st = .ok (q, st1) ∧
      Square.invokeGetArea q st1 = .ok (a, st1) ∧
      Square.invokeIsLargerThan (depth + 2) q t st1 = .ok (F64.gt a t, st1)) :=
  ⟨⟨_, _, _, NewCircle_run r st, Circle_invokeGetArea_new r st,
      Circle_invokeIsLargerThan_new r t st depth⟩,
    ⟨_, _, _, NewSquare_run s st, Square_invokeGetArea_new s st,
      Square_invokeIsLargerThan_new s t st depth⟩⟩

/-- The radius `2^-600`. -/
theorem tinyRadius_toRat :
    (F64.ofBits 0x1A70000000000000).toRat = 2 ^ (-600 : Int) := by
  rw [F64.toRat_of_pos _ (by decide)]
  have h1 : (F64.ofBits 0x1A70000000000000).mant = two52 := by decide
  have h2 : (F64.ofBits 0x1A70000000000000).expo = -652 := by decide
  rw [h1, h2, F64.two52_cast, ← zpow_add₀ (by norm_num : (2 : ℚ) ≠ 0)]
  norm_num

set_option maxRecDepth 100000 in
/-- C2, as stated, fails at both ends of the range of float64.  The radius
`2^-600` is positive and its area is computed as 0, at relative distance 1 of
π r² > 0; the radius `2^600` is finite and its area is computed as +Inf. -/
theorem circle_area_out_of_range :
    (∃ c st1 a, NewCircle (F64.ofBits 0x1A70000000000000) {} = .ok (c, st1) ∧
      Circle.invokeGetArea c st1 = .ok (a, st1) ∧
      F64.gt (F64.ofBits 0x1A70000000000000) (F64.zero false) = true ∧
      ¬ |((a.toRat : ℚ) : ℝ)
            - Real.pi * (((F64.ofBits 0x1A70000000000000).toRat : ℚ) : ℝ) ^ 2|
          ≤ 1 / 10 ^ 9
            * (Real.pi * (((F64.ofBits 0x1A70000000000000).toRat : ℚ) : ℝ) ^ 2)) ∧
    (∃ c st1 a, NewCircle (F64.ofBits 0x6570000000000000) {} = .ok (c, st1) ∧
      Circle.invokeGetArea c st1 = .ok (a, st1) ∧
      F64.gt (F64.ofBits 0x6570000000000000) (F64.zero false) = true ∧
      (F64.ofBits 0x6570000000000000).isFinite = true ∧
      a = F64.inf false ∧ a.isFinite = false) := by
  refine ⟨⟨_, _, _, NewCircle_run _ _, Circle_invokeGetArea_new _ _, by decide, ?_⟩,
    ⟨_, _, _, NewCircle_run _ _, Circle_invokeGetArea_new _ _, by decide, by decide,
      by decide!, by decide!⟩⟩
  have hz : F64.mul (F64.mul Pi (F64.ofBits 0x1A70000000000000))
      (F64.ofBits 0x1A70000000000000) = F64.zero false := by decide!
  have h0 : (F64.zero false).toRat = 0 := by
    have : (F64.zero false).mant = 0 := by decide
    simp [F64.toRat, this]
  rw [hz, h0, tinyRadius_toRat]
  have hx : (0 : ℝ) < Real.pi * (((2 : ℚ) ^ (-600 : Int) : ℚ) : ℝ) ^ 2 := by
    have : (0 : ℝ) < (((2 : ℚ) ^ (-600 : Int) : ℚ) : ℝ) := by
      exact_mod_cast (zpow_pos (by norm_num : (0 : ℚ) < 2) (-600))
    have := Real.pi_pos
    positivity
  generalize Real.pi * (((2 : ℚ) ^ (-600 : Int) : ℚ) : ℝ) ^ 2 = x at hx
  intro h
  rw [Rat.cast_zero, zero_sub, abs_neg, abs_of_pos hx] at h
  norm_num at h
  linarith

/-- C2, amended: for every finite radius `r` with `2^-500 ≤ r ≤ 2^500`, the
area of the circle built by `NewCircle(r)` is a finite number within relative
distance `1e-9` of π r². -/
theorem circle_area_within_tolerance (st : State) (r : F64) (hfin : r.isFinite = true)
    (hlo : (2 : ℚ) ^ (-500 : Int) ≤ r.toRat) (hhi : r.toRat ≤ (2 : ℚ) ^ (500 : Int)) :
    ∃ c st1 a, NewCircle r st = .ok (c, st1) ∧
      Circle.invokeGetArea c st1 = .ok (a, st1) ∧ a.isFinite = true ∧
      |((a.toRat : ℚ) : ℝ) - Real.pi * ((r.toRat : ℚ) : ℝ) ^ 2|
        ≤ 1 / 10 ^ 9 * (Real.pi * ((r.toRat : ℚ) : ℝ) ^ 2) :=
  ⟨_, _, _, NewCircle_run r st, Circle_invokeGetArea_new r st,
    (circle_area_accurate r hfin hlo hhi).1, (circle_area_accurate r hfin hlo hhi).2⟩

set_option maxRecDepth 100000 in
/-- C2, amended, at the radius 2 of `main`. -/
theorem circle_area_within_tolerance_witness :
    (F64.ofNat 2).isFinite = true ∧ (2 : ℚ) ^ (-500 : Int) ≤ (F64.ofNat 2).toRat ∧
    (F64.ofNat 2).toRat ≤ (2 : ℚ) ^ (500 : Int) ∧
    ∃ c st1 a, NewCircle (F64.ofNat 2) {} = .ok (c, st1) ∧
      Circle.invokeGetArea c st1 = .ok (a, st1) ∧ a.isFinite = true ∧
      |((a.toRat : ℚ) : ℝ) - Real.pi * (((F64.ofNat 2).toRat : ℚ) : ℝ) ^ 2|
        ≤ 1 / 10 ^ 9 * (Real.pi * (((F64.ofNat 2).toRat : ℚ) : ℝ) ^ 2) :=
  have h1 : (F64.ofNat 2).isFinite = true := by decide
  have h2 : (2 : ℚ) ^ (-500 : Int) ≤ (F64.ofNat 2).toRat := by
    rw [ofNat_two_toRat]
    calc (2 : ℚ) ^ (-500 : Int) ≤ 2 ^ (1 : Int) :=
          zpow_le_zpow_right₀ (by norm_num) (by norm_num)
      _ = 2 := by norm_num
  have h3 : (F64.ofNat 2).toRat ≤ (2 : ℚ) ^ (500 : Int) := by
    rw [ofNat_two_toRat]
    calc (2 : ℚ) = 2 ^ (1 : Int) := by norm_num
      _ ≤ 2 ^ (500 : Int) := zpow_le_zpow_right₀ (by norm_num) (by norm_num)
  ⟨h1, h2, h3, circle_area_within_tolerance {} (F64.ofNat 2) h1 h2 h3⟩

/-- C4: for every shape built by `NewCircle` or `NewSquare`, when the threshold
`t` equals the area the shape reports (equal as Go's `==` has it, or the very
same float64), `IsLargerThan(shape, t)` returns false. -/
theorem isLargerThan_false_at_area (st : State) (r s t : F64) (depth : Nat) :
    (∀ c st1 a, NewCircle r st = .ok (c, st1) → Circle.invokeGetArea c st1 = .ok (a, st1) →
      (F64.eq a t = true ∨ a = t) →
      Circle.invokeIsLargerThan (depth + 2) c t st1 = .ok (false, st1)) ∧
    (∀ q st1 a, NewSquare s st = .ok (q, st1) → Square.invokeGetArea q st1 = .ok (a, st1) →
      (F64.eq a t = true ∨ a = t) →
      Square.invokeIsLargerThan (depth + 2) q t st1 = .ok (false, st1)) := by
  constructor
  · intro c st1 a h1 h2 h3
    rw [NewCircle_run] at h1
    simp only [Except.ok.injEq, Prod.mk.injEq] at h1
    obtain ⟨rfl, rfl⟩ := h1
    rw [Circle_invokeGetArea_new] at h2
    simp only [Except.ok.injEq, Prod.mk.injEq, and_true] at h2
    subst h2
    rw [Circle_invokeIsLargerThan_new, gt_false_of_eq _ _ h3]
  · intro q st1 a h1 h2 h3
    rw [NewSquare_run] at h1
    simp only [Except.ok.injEq, Prod.mk.injEq] at h1
    obtain ⟨rfl, rfl⟩ := h1
    rw [Square_invokeGetArea_new] at h2
    simp only [Except.ok.injEq, Prod.mk.injEq, and_true] at h2
    subst h2
    rw [Square_invokeIsLargerThan_new, gt_false_of_eq _ _ h3]

set_option maxRecDepth 100000 in
/-- C4 at the square of side 5 and the threshold 25, and at the circle of
radius 2 and the threshold `0x402921FB54442D18`, its area. -/
theorem isLargerThan_false_at_area_witness :
    (NewSquare (F64.ofNat 5) {} = .ok (some 0, afterNewSquare (F64.ofNat 5) {}) ∧
      Square.invokeGetArea (some 0) (afterNewSquare (F64.ofNat 5) {})
        = .ok (F64.mul (F64.ofNat 5) (F64.ofNat 5), afterNewSquare (F64.ofNat 5) {}) ∧
      F64.eq (F64.mul (F64.ofNat 5) (F64.ofNat 5)) (F64.ofNat 25) = true ∧
      Square.invokeIsLargerThan 2 (some 0) (F64.ofNat 25) (afterNewSquare (F64.ofNat 5) {})
        = .ok (false, afterNewSquare (F64.ofNat 5) {})) ∧
    (NewCircle (F64.ofNat 2) {} = .ok (some 0, afterNewCircle (F64.ofNat 2) {}) ∧
      Circle.invokeGetArea (some 0) (afterNewCircle (F64.ofNat 2) {})
        = .ok (F64.mul (F64.mul Pi (F64.ofNat 2)) (F64.ofNat 2),
            afterNewCircle (F64.ofNat 2) {}) ∧
      F64.eq (F64.mul (F64.mul Pi (F64.ofNat 2)) (F64.ofNat 2))
        (F64.ofBits 0x402921FB54442D18) = true ∧
      Circle.invokeIsLargerThan 2 (some 0) (F64.ofBits 0x402921FB54442D18)
          (afterNewCircle (F64.ofNat 2) {})
        = .ok (false, afterNewCircle (F64.ofNat 2) {})) :=
  have e1 : F64.eq (F64.mul (F64.ofNat 5) (F64.ofNat 5)) (F64.ofNat 25) = true := by decide!
  have e2 : F64.eq (F64.mul (F64.mul Pi (F64.ofNat 2)) (F64.ofNat 2))
      (F64.ofBits 0x402921FB54442D18) = true := by decide!
  ⟨⟨NewSquare_run _ _, Square_invokeGetArea_new _ _, e1,
      (isLargerThan_false_at_area {} (F64.ofNat 2) (F64.ofNat 5) (F64.ofNat 25) 0).2 _ _ _
        (NewSquare_run _ _) (Square_invokeGetArea_new _ _) (Or.inl e1)⟩,
    ⟨NewCircle_run _ _, Circle_invokeGetArea_new _ _, e2,
      (isLargerThan_false_at_area {} (F64.ofNat 2) (F64.ofNat 5)
        (F64.ofBits 0x402921FB54442D18) 0).1 _ _ _
        (NewCircle_run _ _) (Circle_invokeGetArea_new _ _) (Or.inl e2)⟩⟩

/-! ## The two scenarios of `main` and the display strings -/

set_option maxRecDepth 100000 in
/-- C5: the square built by `NewSquare(5)` in the initial state has area exactly
25, `square.IsLargerThan(square, 16.0)` is true, and `main` runs to its end
having printed first the line
`Square (side=5.000000) is larger than 16.000000: true`. -/
theorem square_scenario (depth : Nat) :
    (F64.ofNat 5).toRat = 5 ∧ (F64.ofNat 16).toRat = 16 ∧
    (∃ q st1 a, NewSquare (F64.ofNat 5) {} = .ok (q, st1) ∧
      Square.invokeGetArea q st1 = .ok (a, st1) ∧ a.isFinite = true ∧ a.toRat = 25 ∧
      Square.invokeIsLargerThan (depth + 2) q (F64.ofNat 16) st1 = .ok (true, st1)) ∧
    (∃ st2 rest, main (depth + 2) {} = .ok ((), st2) ∧
      st2.stdout
        = "Square (side=5.000000) is larger than 16.000000: true" ++ "\n" ++ rest) := by
  refine ⟨ofNat_five_toRat, ofNat_sixteen_toRat,
    ⟨_, _, _, NewSquare_run _ _, Square_invokeGetArea_new _ _, ?_, ?_, ?_⟩,
    ⟨_, "Circle (radius=2.000000) is larger than 16.000000: false\n", main_run _ _, ?_⟩⟩
  · rw [square_five_area]; decide
  · rw [square_five_area]; exact ofNat_twentyfive_toRat
  · rw [Square_invokeIsLargerThan_new, square_five_area]
    have : F64.gt (F64.ofNat 25) (F64.ofNat 16) = true := by decide
    rw [this]
  · rw [afterMain_stdout]; decide

set_option maxRecDepth 100000 in
/-- C6: the circle built by `NewCircle(2)`, in any state, has an area within
`0.001` of 12.566, below 16; `circle.IsLargerThan(circle, 16.0)` is false, and
`main` runs to its end having printed last the line
`Circle (radius=2.000000) is larger than 16.000000: false`. -/
theorem circle_scenario (st : State) (depth : Nat) :
    (F64.ofNat 2).toRat = 2 ∧ (F64.ofNat 16).toRat = 16 ∧
    (∃ c st1 a, NewCircle (F64.ofNat 2) st = .ok (c, st1) ∧
      Circle.invokeGetArea c st1 = .ok (a, st1) ∧ a.isFinite = true ∧
      |a.toRat - 12.566| < 0.001 ∧ a.toRat < 16 ∧
      Circle.invokeIsLargerThan (depth + 2) c (F64.ofNat 16) st1 = .ok (false, st1)) ∧
    (∃ st2 first, main (depth + 2) {} = .ok ((), st2) ∧
      st2.stdout
        = first ++ "Circle (radius=2.000000) is larger than 16.000000: false" ++ "\n") := by
  refine ⟨ofNat_two_toRat, ofNat_sixteen_toRat,
    ⟨_, _, _, NewCircle_run _ _, Circle_invokeGetArea_new _ _, ?_, ?_, ?_, ?_⟩,
    ⟨_, "Square (side=5.000000) is larger than 16.000000: true\n", main_run _ _, ?_⟩⟩
  · rw [circle_two_area]; decide
  · rw [circle_two_area, circle_two_area_toRat, abs_lt]
    constructor <;> norm_num
  · rw [circle_two_area, circle_two_area_toRat]; norm_num
  · rw [Circle_invokeIsLargerThan_new, circle_two_area]
    have : F64.gt (F64.ofBits 0x402921FB54442D18) (F64.ofNat 16) = false := by decide
    rw [this]
  · rw [afterMain_stdout]; decide

set_option maxRecDepth 100000 in
/-- C7: the display string of a circle is `Circle (radius=` followed by its
radius under the verb `%f` and `)`, that of a square is `Square (side=` followed
by its side under `%f` and `)`, also as `%v` prints a shape just built; the
circle of radius 2 displays as `Circle (radius=2.000000)` and the square of side
5 as `Square (side=5.000000)`. -/
theorem display_string (st : State) (r s : F64) :
    (∀ circle : Circle, circle.String = "Circle (radius=" ++ F64.fmtF circle.radius ++ ")") ∧
    (∀ square : Square, square.String = "Square (side=" ++ F64.fmtF square.side ++ ")") ∧
    (∃ c st1, NewCircle r st = .ok (c, st1) ∧
      fmtCircle c st1 = .ok ("Circle (radius=" ++ F64.fmtF r ++ ")", st1)) ∧
    (∃ q st1, NewSquare s st = .ok (q, st1) ∧
      fmtSquare q st1 = .ok ("Square (side=" ++ F64.fmtF s ++ ")", st1)) ∧
    (∃ c st1, NewCircle (F64.ofNat 2) st = .ok (c, st1) ∧
      fmtCircle c st1 = .ok ("Circle (radius=2.000000)", st1)) ∧
    (∃ q st1, NewSquare (F64.ofNat 5) st = .ok (q, st1) ∧
      fmtSquare q st1 = .ok ("Square (side=5.000000)", st1)) := by
  have h2 : "Circle (radius=" ++ F64.fmtF (F64.ofNat 2) ++ ")" = "Circle (radius=2.000000)" := by
    decide!
  have h5 : "Square (side=" ++ F64.fmtF (F64.ofNat 5) ++ ")" = "Square (side=5.000000)" := by
    decide!
  refine ⟨fun _ => rfl, fun _ => rfl, ⟨_, _, NewCircle_run _ _, fmtCircle_new _ _⟩,
    ⟨_, _, NewSquare_run _ _, fmtSquare_new _ _⟩,
    ⟨_, _, NewCircle_run _ _, ?_⟩, ⟨_, _, NewSquare_run _ _, ?_⟩⟩
  · rw [fmtCircle_new, h2]
  · rw [fmtSquare_new, h5]

/-! ## The type-mismatch panic -/

/-- C8: on a value whose dynamic type is none of `*Shape`, `*Circle`, `*Square`,
each of `ShapeIsLargerThan`, `CircleIsLargerThan`, `CircleGetArea`,
`SquareIsLargerThan` and `SquareGetArea` panics with the error
`wrong type passed <type>`, whatever the state and the threshold. -/
theorem wrong_type_panics (this : Any) (h : this.isShapeVariant = false) (area : F64)
    (st : State) (depth : Nat) :
    ShapeIsLargerThan this area st
      = .error (.wrongType ("wrong type passed " ++ this.typeName)) ∧
    CircleIsLargerThan depth this area st
      = .error (.wrongType ("wrong type passed " ++ this.typeName)) ∧
    CircleGetArea this st
      = .error (.wrongType ("wrong type passed " ++ this.typeName)) ∧
    SquareIsLargerThan depth this area st
      = .error (.wrongType ("wrong type passed " ++ this.typeName)) ∧
    SquareGetArea this st
      = .error (.wrongType ("wrong type passed " ++ this.typeName)) := by
  cases this with
  | nil => exact ⟨rfl, rfl, rfl, rfl, rfl⟩
  | other n => exact ⟨rfl, rfl, rfl, rfl, rfl⟩
  | shape p => simp [Any.isShapeVariant] at h
  | circle p => simp [Any.isShapeVariant] at h
  | square p => simp [Any.isShapeVariant] at h

/-- C8 at a value of dynamic type `int` and at the nil interface value. -/
theorem wrong_type_panics_witness :
    (Any.other "int").isShapeVariant = false ∧
    (ShapeIsLargerThan (.other "int") (F64.ofNat 16) {}
      = .error (.wrongType ("wrong type passed " ++ (Any.other "int").typeName)) ∧
    CircleIsLargerThan 0 (.other "int") (F64.ofNat 16) {}
      = .error (.wrongType ("wrong type passed " ++ (Any.other "int").typeName)) ∧
    CircleGetArea (.other "int") {}
      = .error (.wrongType ("wrong type passed " ++ (Any.other "int").typeName)) ∧
    SquareIsLargerThan 0 (.other "int") (F64.ofNat 16) {}
      = .error (.wrongType ("wrong type passed " ++ (Any.other "int").typeName)) ∧
    SquareGetArea (.other "int") {}
      = .error (.wrongType ("wrong type passed " ++ (Any.other "int").typeName))) ∧
    "wrong type passed " ++ (Any.other "int").typeName = "wrong type passed int" :=
  ⟨rfl, wrong_type_panics (.other "int") rfl (F64.ofNat 16) {} 0, by decide⟩

/-- C9: in any state and for every radius, side and threshold, the calls
`c.IsLargerThan(c, t)` and `c.GetArea(c)` on `c = NewCircle(r)` and
`q.IsLargerThan(q, t)` and `q.GetArea(q)` on `q = NewSquare(s)` return a value:
no panic, of either kind, is met; and `main` runs to its end. -/
theorem no_panic_on_constructed_shapes (st : State) (r s t : F64) (depth : Nat) :
    (∃ c st1 b a, NewCircle r st = .ok (c, st1) ∧
      Circle.invokeIsLargerThan (depth + 2) c t st1 = .ok (b, st1) ∧
      Circle.invokeGetArea c st1 = .ok (a, st1)) ∧
    (∃ q st1 b a, NewSquare s st = .ok (q, st1) ∧
      Square.invokeIsLargerThan (depth + 2) q t st1 = .ok (b, st1) ∧
      Square.invokeGetArea q st1 = .ok (a, st1)) ∧
    (∃ st2, main (depth + 2) st = .ok ((), st2)) :=
  ⟨⟨_, _, _, _, NewCircle_run r st, Circle_invokeIsLargerThan_new r t st depth,
      Circle_invokeGetArea_new r st⟩,
    ⟨_, _, _, _, NewSquare_run s st, Square_invokeIsLargerThan_new s t st depth,
      Square_invokeGetArea_new s st⟩,
    ⟨_, main_run st depth⟩⟩

/-- C10: for every circle `c = NewCircle(r)` and every square `q = NewSquare(s)`,
`c.IsLargerThan(c, t)` is `ShapeIsLargerThan(c.parent, t)` and
`q.IsLargerThan(q, t)` is `ShapeIsLargerThan(q.parent, t)`, both returning a
value; the `IsLargerThan` field of either parent is `ShapeIsLargerThan`, and the
`GetArea` fields of the parents are `CircleGetArea` and `SquareGetArea`. -/
theorem comparison_defined_once (st : State) (r s t : F64) (depth : Nat) :
    (∃ c st1 circle parent b, NewCircle r st = .ok (c, st1) ∧
      readCircle c st1 = .ok (circle, st1) ∧
      readShape circle.parent st1 = .ok (parent, st1) ∧
      parent.IsLargerThan = some .ShapeIsLargerThan ∧
      parent.GetArea = some .CircleGetArea ∧
      Circle.invokeIsLargerThan (depth + 2) c t st1
        = ShapeIsLargerThan (.shape circle.parent) t st1 ∧
      ShapeIsLargerThan (.shape circle.parent) t st1 = .ok (b, st1)) ∧
    (∃ q st1 square parent b, NewSquare s st = .ok (q, st1) ∧
      readSquare q st1 = .ok (square, st1) ∧
      readShape square.parent st1 = .ok (parent, st1) ∧
      parent.IsLargerThan = some .ShapeIsLargerThan ∧
      parent.GetArea = some .SquareGetArea ∧
      Square.invokeIsLargerThan (depth + 2) q t st1
        = ShapeIsLargerThan (.shape square.parent) t st1 ∧
      ShapeIsLargerThan (.shape square.parent) t st1 = .ok (b, st1)) ∧
    AreaFunc.CircleGetArea ≠ AreaFunc.SquareGetArea := by
  refine ⟨⟨_, _, _, _, _, NewCircle_run r st, readCircle_new r st, readShape_newCircle r st,
      rfl, rfl, ?_, ShapeIsLargerThan_newCircle r t st⟩,
    ⟨_, _, _, _, _, NewSquare_run s st, readSquare_new s st, readShape_newSquare s st,
      rfl, rfl, ?_, ShapeIsLargerThan_newSquare s t st⟩, ?_⟩
  · rw [Circle_invokeIsLargerThan_new, ShapeIsLargerThan_newCircle]
  · rw [Square_invokeIsLargerThan_new, ShapeIsLargerThan_newSquare]
  · intro h; cases h

/-! ## float64: order, sign and negation -/

namespace F64

theorem gt_of_le_of_gt (a t t2 : F64) (h : le t2 t = true) (hg : gt a t = true) :
    gt a t2 = true := by
  simp only [le, gt, Bool.and_eq_true, Bool.not_eq_true', decide_eq_true_eq] at *
  exact ⟨⟨hg.1.1, h.1.1⟩, lt_of_le_of_lt h.2 hg.2⟩

theorem not_gt_of_le_of_not_gt (a t t2 : F64) (h : le t2 t = true) (hg : gt a t2 = false) :
    gt a t = false := by
  cases hc : gt a t with
  | false => rfl
  | true => rw [gt_of_le_of_gt a t t2 h hc] at hg; cases hg

theorem pack_sign (s : Bool) (mag : Nat) : (pack s mag).sign = s := by
  unfold pack; split_ifs <;> rfl

theorem pack_mag_le (s : Bool) (mag : Nat) : (pack s mag).mag ≤ infMag := by
  unfold pack
  split_ifs with h
  · exact le_of_lt h
  · exact le_refl _

theorem pack_neg (s : Bool) (mag : Nat) : pack (!s) mag = neg (pack s mag) := by
  unfold pack; split_ifs <;> rfl

theorem roundNE_sign (s : Bool) (m : Nat) (e : Int) : (roundNE s m e).sign = s := by
  unfold roundNE
  split_ifs
  · rfl
  · exact pack_sign _ _

theorem roundNE_mag_le (s : Bool) (m : Nat) (e : Int) : (roundNE s m e).mag ≤ infMag := by
  unfold roundNE
  split_ifs
  · exact Nat.zero_le _
  · exact pack_mag_le _ _

theorem roundNE_zero (s : Bool) (e : Int) : roundNE s 0 e = zero s := by
  unfold roundNE; simp

theorem roundNE_neg (s : Bool) (m : Nat) (e : Int) :
    roundNE (!s) m e = neg (roundNE s m e) := by
  unfold roundNE
  split_ifs
  · rfl
  · exact pack_neg _ _

theorem inf_isNaN (s : Bool) : (inf s).isNaN = false := by
  cases s <;> decide

theorem mant_eq_zero_of_mag (x : F64) (h : x.mag = 0) : x.mant = 0 := by
  unfold mant expField two52; rw [h]; rfl

/-- A product is a NaN only when an operand is a NaN or the operands are a
zero and an infinity. -/
theorem mul_isNaN (x y : F64) (hx : x.isNaN = false) (hy : y.isNaN = false)
    (h1 : x.isInf = true → y.mag ≠ 0) (h2 : y.isInf = true → x.mag ≠ 0) :
    (mul x y).isNaN = false := by
  unfold mul
  simp only [hx, hy, Bool.or_self, Bool.false_eq_true, if_false]
  by_cases hxi : x.isInf = true
  · simp only [hxi, if_true, h1 hxi, if_false]; exact inf_isNaN _
  · by_cases hyi : y.isInf = true
    · simp only [hxi, hyi, if_true, h2 hyi, if_false]; exact inf_isNaN _
    · simp only [hxi, hyi, if_false]
      have := roundNE_mag_le (xor x.sign y.sign) (x.mant * y.mant) (x.expo + y.expo)
      simp only [isNaN, decide_eq_false_iff_not, not_lt]
      exact this

/-- The sign of a product that is not a NaN is the exclusive or of the signs. -/
theorem mul_sign (x y : F64) (h : (mul x y).isNaN = false) :
    (mul x y).sign = xor x.sign y.sign := by
  unfold mul at h ⊢
  split_ifs at h ⊢ with c1 c2 c3 c4 c5
  · exact absurd h (by decide)
  · exact absurd h (by decide)
  · rfl
  · exact absurd h (by decide)
  · rfl
  · exact roundNE_sign _ _ _

theorem neg_isNaN (x : F64) : (neg x).isNaN = x.isNaN := rfl

theorem mul_neg_neg (x y : F64) : mul (neg x) (neg y) = mul x y := by
  unfold mul
  have e : xor (neg x).sign (neg y).sign = xor x.sign y.sign := by
    show xor (!x.sign) (!y.sign) = xor x.sign y.sign
    cases x.sign <;> cases y.sign <;> rfl
  have e1 : (neg x).isNaN = x.isNaN := rfl
  have e2 : (neg y).isNaN = y.isNaN := rfl
  have e3 : (neg x).isInf = x.isInf := rfl
  have e4 : (neg y).isInf = y.isInf := rfl
  have e5 : (neg x).mag = x.mag := rfl
  have e6 : (neg y).mag = y.mag := rfl
  have e7 : (neg x).mant = x.mant := rfl
  have e8 : (neg y).mant = y.mant := rfl
  have e9 : (neg x).expo = x.expo := rfl
  have e10 : (neg y).expo = y.expo := rfl
  rw [e, e1, e2, e3, e4, e5, e6, e7, e8, e9, e10]

/-- Negating the right operand negates a product, unless the product is the NaN
on both sides. -/
theorem mul_neg_right (x y : F64) :
    mul x (neg y) = neg (mul x y) ∨ (mul x (neg y) = nan ∧ mul x y = nan) := by
  unfold mul
  have e : xor x.sign (neg y).sign = !(xor x.sign y.sign) := by
    show xor x.sign (!y.sign) = !(xor x.sign y.sign)
    cases x.sign <;> cases y.sign <;> rfl
  have e2 : (neg y).isNaN = y.isNaN := rfl
  have e4 : (neg y).isInf = y.isInf := rfl
  have e6 : (neg y).mag = y.mag := rfl
  have e8 : (neg y).mant = y.mant := rfl
  have e10 : (neg y).expo = y.expo := rfl
  rw [e, e2, e4, e6, e8, e10]
  split_ifs with c1 c2 c3 c4 c5
  · exact Or.inr ⟨rfl, rfl⟩
  · exact Or.inr ⟨rfl, rfl⟩
  · exact Or.inl rfl
  · exact Or.inr ⟨rfl, rfl⟩
  · exact Or.inl rfl
  · exact Or.inl (roundNE_neg _ _ _)

theorem ge_zero_of_sign (a : F64) (h : a.isNaN = false) (hs : a.sign = false) :
    ge a (zero false) = true := by
  have hz : (zero false).isNaN = false := by decide
  have hk : (zero false).key = 0 := by decide
  have ha : (0 : Int) ≤ a.key := by simp [key, hs]
  simp only [ge, le, h, hz, hk, Bool.not_false, Bool.true_and, decide_eq_true_eq]
  exact ha

theorem gt_of_neg_threshold (a t : F64) (h : a.isNaN = false) (hs : a.sign = false)
    (ht : lt t (zero false) = true) : gt a t = true := by
  have hk : (zero false).key = 0 := by decide
  simp only [lt, gt, Bool.and_eq_true, Bool.not_eq_true', decide_eq_true_eq, hk] at ht
  simp only [gt, h, ht.1.2, Bool.not_false, Bool.true_and, decide_eq_true_eq]
  have : (0 : Int) ≤ a.key := by simp [key, hs]
  omega

theorem isInf_mag_ne_zero (x : F64) (h : x.isInf = true) : x.mag ≠ 0 := by
  simp only [isInf, decide_eq_true_eq] at h
  rw [h]; decide

theorem nan_mul (y : F64) : mul nan y = nan := by
  unfold mul
  have : nan.isNaN = true := by decide
  simp [this]

/-- The square of a float64 that is not a NaN is not a NaN and has its sign bit
clear. -/
theorem mul_self_nonneg (s : F64) (hs : s.isNaN = false) :
    (mul s s).isNaN = false ∧ (mul s s).sign = false := by
  have h := mul_isNaN s s hs hs (isInf_mag_ne_zero s) (isInf_mag_ne_zero s)
  refine ⟨h, ?_⟩
  rw [mul_sign s s h]
  cases s.sign <;> rfl

end F64

theorem Pi_mul_isNaN (r : F64) (hr : r.isNaN = false) : (F64.mul Pi r).isNaN = false :=
  F64.mul_isNaN Pi r (by decide) hr (fun h => absurd h (by decide)) (fun _ => by decide)

theorem Pi_mul_isInf (r : F64) (hr : r.isNaN = false) (h : (F64.mul Pi r).isInf = true) :
    r.mag ≠ 0 := by
  intro h0
  have hri : r.isInf = false := by
    simp only [F64.isInf, decide_eq_false_iff_not, h0]; decide
  have hp1 : Pi.isNaN = false := by decide
  have hp2 : Pi.isInf = false := by decide
  have hz : F64.mul Pi r = F64.zero (xor Pi.sign r.sign) := by
    unfold F64.mul
    simp only [hp1, hr, hp2, hri, Bool.or_self, Bool.false_eq_true, if_false,
      F64.mant_eq_zero_of_mag r h0, Nat.mul_zero, F64.roundNE_zero]
  rw [hz] at h
  revert h
  cases (xor Pi.sign r.sign) <;> decide

theorem mul_Pi_isInf_of_isInf (r : F64) (hr : r.isNaN = false) (h : r.isInf = true) :
    (F64.mul Pi r).mag ≠ 0 := by
  have hp1 : Pi.isNaN = false := by decide
  have hp2 : Pi.isInf = false := by decide
  have hp3 : Pi.mag ≠ 0 := by decide
  have hz : F64.mul Pi r = F64.inf (xor Pi.sign r.sign) := by
    unfold F64.mul
    simp only [hp1, hr, hp2, h, Bool.or_self, Bool.false_eq_true, if_false, if_true, hp3]
  rw [hz]
  show infMag ≠ 0
  decide

/-- The area `math.Pi * r * r` of a radius that is not a NaN is not a NaN and has
its sign bit clear. -/
theorem circle_area_nonneg (r : F64) (hr : r.isNaN = false) :
    (F64.mul (F64.mul Pi r) r).isNaN = false ∧ (F64.mul (F64.mul Pi r) r).sign = false := by
  have hz := Pi_mul_isNaN r hr
  have h := F64.mul_isNaN (F64.mul Pi r) r hz hr (Pi_mul_isInf r hr)
    (mul_Pi_isInf_of_isInf r hr)
  refine ⟨h, ?_⟩
  rw [F64.mul_sign _ _ h, F64.mul_sign _ _ hz]
  have : Pi.sign = false := by decide
  rw [this]
  cases r.sign <;> rfl

/-- The area `math.Pi * r * r` is the same for `r` and for `-r`. -/
theorem circle_area_neg (r : F64) :
    F64.mul (F64.mul Pi (F64.neg r)) (F64.neg r) = F64.mul (F64.mul Pi r) r := by
  rcases F64.mul_neg_right Pi r with h | ⟨h1, h2⟩
  · rw [h, F64.mul_neg_neg]
  · rw [h1, h2, F64.nan_mul, F64.nan_mul]

/-! ## float64: rounding a value that a float64 holds -/

namespace F64

/-- A finite number that is at least `2^-1022` is a positive normal number. -/
theorem posNormal_of_toRat_ge (y : F64) (hfin : y.isFinite = true)
    (hlo : (2 : ℚ) ^ (-1022 : Int) ≤ y.toRat) : posNormal y := by
  have hmag : y.mag < infMag := by simpa [isFinite] using hfin
  have h2ne : (2 : ℚ) ≠ 0 := by norm_num
  have hpow : ∀ z : Int, (0 : ℚ) < 2 ^ z := fun z => zpow_pos (by norm_num) z
  have hsign : y.sign = false := by
    by_contra hs
    have hs : y.sign = true := by simpa using hs
    have : y.toRat ≤ 0 := by
      simp only [toRat, hs, if_true]
      have := hpow y.expo
      have hm : (0 : ℚ) ≤ y.mant := Nat.cast_nonneg _
      nlinarith [mul_nonneg hm this.le]
    linarith [hpow (-1022)]
  rw [toRat_of_pos y hsign] at hlo
  refine ⟨hsign, ?_, hmag⟩
  by_contra hsub
  have hsub : y.mag < two52 := by omega
  have hm : y.mant < two52 := by
    unfold mant expField two52 at *; split_ifs with h <;> omega
  have he : y.expo = -1074 := by
    unfold expo expField two52 at *; split_ifs with h <;> omega
  rw [he] at hlo
  have hm2 : (y.mant : ℚ) < 2 ^ (52 : Int) := by
    rw [← two52_cast]; exact_mod_cast hm
  have : (y.mant : ℚ) * 2 ^ (-1074 : Int) < 2 ^ (52 : Int) * 2 ^ (-1074 : Int) :=
    mul_lt_mul_of_pos_right hm2 (hpow _)
  rw [← zpow_add₀ h2ne] at this
  have h3 : (2 : ℚ) ^ ((52 : Int) + -1074) = 2 ^ (-1022 : Int) := by norm_num
  linarith

/-- Rounding a value that a normal float64 holds gives that value: if
`m * 2^e = M * 2^E` with `2^52 <= M < 2^53`, the rounded number has this very
value. -/
theorem roundNE_exact (s : Bool) (m : Nat) (e : Int) (hm : 0 < m)
    (h1 : -1022 ≤ e + (ilog2 m : Int)) (h2 : e + (ilog2 m : Int) ≤ 1022)
    (M : Nat) (E : Int) (hM1 : two52 ≤ M) (hM2 : M < 2 * two52)
    (hv : (M : ℚ) * 2 ^ E = (m : ℚ) * 2 ^ e) :
    ((roundNE s m e).mant : ℚ) * 2 ^ (roundNE s m e).expo = (m : ℚ) * 2 ^ e := by
  obtain ⟨_, r2, _, r4, r5, r6⟩ := roundNE_normal s m e hm h1 h2
  obtain ⟨hn1, hn2⟩ := ilog2_spec m hm
  generalize ilog2 m = n at *
  generalize roundNE s m e = z at *
  have h2lt : (1 : ℚ) < 2 := by norm_num
  have h2ne : (2 : ℚ) ≠ 0 := by norm_num
  have hpow : ∀ k : Int, (0 : ℚ) < 2 ^ k := fun k => zpow_pos (by norm_num) k
  -- the value lies in the binade of 2^(e+n) and in that of 2^(E+52)
  have a1 : (2 : ℚ) ^ ((n : Int) + e) ≤ (m : ℚ) * 2 ^ e := by
    rw [zpow_add₀ h2ne, zpow_natCast]
    exact mul_le_mul_of_nonneg_right (by exact_mod_cast hn1) (hpow e).le
  have a2 : (m : ℚ) * 2 ^ e < 2 ^ ((n : Int) + 1 + e) := by
    rw [zpow_add₀ h2ne]
    have : ((n : Int) + 1) = ((n + 1 : Nat) : Int) := by push_cast; ring
    rw [this, zpow_natCast]
    exact mul_lt_mul_of_pos_right (by exact_mod_cast hn2) (hpow e)
  have b1 : (2 : ℚ) ^ ((52 : Int) + E) ≤ (M : ℚ) * 2 ^ E := by
    rw [zpow_add₀ h2ne, ← two52_cast]
    exact mul_le_mul_of_nonneg_right (by exact_mod_cast hM1) (hpow E).le
  have b2 : (M : ℚ) * 2 ^ E < 2 ^ ((53 : Int) + E) := by
    rw [zpow_add₀ h2ne]
    have : ((2 * two52 : Nat) : ℚ) = 2 ^ (53 : Int) := by unfold two52; norm_num
    rw [← this]
    exact mul_lt_mul_of_pos_right (by exact_mod_cast hM2) (hpow E)
  have c1 : (52 : Int) + E < (n : Int) + 1 + e :=
    (zpow_lt_zpow_iff_right₀ h2lt).mp (lt_of_le_of_lt (hv ▸ b1) a2)
  have c2 : (n : Int) + e < 53 + E :=
    (zpow_lt_zpow_iff_right₀ h2lt).mp (lt_of_le_of_lt a1 (hv ▸ b2))
  have hE : E = e + n - 52 := by omega
  subst hE
  -- the distance between the two multiples of 2^(e+n-52) is below one unit
  have hb : (m : ℚ) * 2 ^ e / 2 ^ 53 < 2 ^ (e + (n : Int) - 52) := by
    have : (2 : ℚ) ^ ((n : Int) + 1 + e) = 2 ^ (e + (n : Int) - 52) * 2 ^ 53 := by
      have : (n : Int) + 1 + e = (e + (n : Int) - 52) + ((53 : Nat) : Int) := by
        push_cast; ring
      rw [this, zpow_add₀ h2ne, zpow_natCast]
    rw [div_lt_iff₀ (by norm_num), ← this]
    exact a2
  have hd : |(z.mant : ℚ) * 2 ^ z.expo - (M : ℚ) * 2 ^ (e + (n : Int) - 52)|
      < 2 ^ (e + (n : Int) - 52) := by
    rw [hv]; exact lt_of_le_of_lt r6 hb
  rw [← hv]
  have hu := hpow (e + (n : Int) - 52)
  rcases (by omega : z.expo = e + (n : Int) - 52 ∨ z.expo = e + (n : Int) - 52 + 1) with he | he
  · rw [he] at hd ⊢
    rw [← sub_mul, abs_mul, abs_of_pos hu] at hd
    have h1 : |(z.mant : ℚ) - (M : ℚ)| < 1 := by
      by_contra hc
      push_neg at hc
      have := mul_le_mul_of_nonneg_right hc hu.le
      linarith
    have h3 : |((z.mant : Int) - (M : Int))| < 1 := by exact_mod_cast h1
    have h4 := Int.abs_lt_one_iff.mp h3
    have h5 : z.mant = M := by omega
    rw [h5]
  · rw [he, zpow_add_one₀ h2ne] at hd ⊢
    have e1 : (z.mant : ℚ) * (2 ^ (e + (n : Int) - 52) * 2) - (M : ℚ) * 2 ^ (e + (n : Int) - 52)
        = ((2 * z.mant : ℚ) - M) * 2 ^ (e + (n : Int) - 52) := by ring
    rw [e1, abs_mul, abs_of_pos hu] at hd
    have h1 : |(2 * z.mant : ℚ) - (M : ℚ)| < 1 := by
      by_contra hc
      push_neg at hc
      have := mul_le_mul_of_nonneg_right hc hu.le
      linarith
    have h3 : |(2 * (z.mant : Int) - (M : Int))| < 1 := by exact_mod_cast h1
    have h4 := Int.abs_lt_one_iff.mp h3
    have h5 : (M : ℚ) = 2 * z.mant := by
      have : (M : Int) = 2 * z.mant := by omega
      exact_mod_cast this
    rw [h5]; ring

/-- The product of two positive normal numbers is the rounding of the product of
their significands, which has 105 or 106 bits. -/
theorem mul_eq_roundNE_of_posNormal (x y : F64) (hx : posNormal x) (hy : posNormal y) :
    mul x y = roundNE false (x.mant * y.mant) (x.expo + y.expo) ∧
    0 < x.mant * y.mant ∧ 104 ≤ ilog2 (x.mant * y.mant) ∧ ilog2 (x.mant * y.mant) ≤ 105 := by
  obtain ⟨hxs, hx1, hx2⟩ := hx
  obtain ⟨hys, hy1, hy2⟩ := hy
  obtain ⟨mx1, mx2⟩ := mant_bounds_of_normal x hx1
  obtain ⟨my1, my2⟩ := mant_bounds_of_normal y hy1
  have hmul : mul x y = roundNE false (x.mant * y.mant) (x.expo + y.expo) := by
    unfold mul isNaN isInf
    have a1 : ¬ infMag < x.mag := by omega
    have a2 : ¬ infMag < y.mag := by omega
    have a3 : ¬ x.mag = infMag := by omega
    have a4 : ¬ y.mag = infMag := by omega
    simp [a1, a2, a3, a4, hxs, hys]
  have hlo : 2 ^ 104 ≤ x.mant * y.mant := by
    have : two52 * two52 ≤ x.mant * y.mant := Nat.mul_le_mul mx1 my1
    have h : two52 * two52 = 2 ^ 104 := by unfold two52; norm_num
    omega
  have hhi : x.mant * y.mant < 2 ^ 106 := by
    have : x.mant * y.mant < (2 * two52) * (2 * two52) :=
      Nat.mul_lt_mul_of_lt_of_lt mx2 my2
    have h : (2 * two52) * (2 * two52) = 2 ^ 106 := by unfold two52; norm_num
    omega
  have hpos : 0 < x.mant * y.mant := lt_of_lt_of_le (by norm_num) hlo
  obtain ⟨l1, l2⟩ := ilog2_spec _ hpos
  refine ⟨hmul, hpos, ?_, ?_⟩
  · have : 2 ^ 104 < 2 ^ (ilog2 (x.mant * y.mant) + 1) := lt_of_le_of_lt hlo l2
    have := (Nat.pow_lt_pow_iff_right (by norm_num : 1 < 2)).mp this
    omega
  · have : 2 ^ ilog2 (x.mant * y.mant) < 2 ^ 106 := lt_of_le_of_lt l1 hhi
    have := (Nat.pow_lt_pow_iff_right (by norm_num : 1 < 2)).mp this
    omega

/-- The square `s * s` computed in float64, for a finite `s` between `2^-500` and
`2^500`: it is exactly the square of `s` as soon as a float64 holds that square. -/
theorem mul_self_exact (s : F64) (hfin : s.isFinite = true)
    (hlo : (2 : ℚ) ^ (-500 : Int) ≤ s.toRat) (hhi : s.toRat ≤ (2 : ℚ) ^ (500 : Int))
    (y : F64) (hy : y.isFinite = true) (hys : y.toRat = s.toRat ^ 2) :
    (mul s s).toRat = s.toRat ^ 2 := by
  obtain ⟨hs, e1, e2⟩ := posNormal_of_toRat s hfin hlo hhi
  have h2ne : (2 : ℚ) ≠ 0 := by norm_num
  have hsq : (2 : ℚ) ^ (-1022 : Int) ≤ s.toRat ^ 2 := by
    have h0 : (0 : ℚ) ≤ 2 ^ (-500 : Int) := (zpow_pos (by norm_num) _).le
    have h1 : ((2 : ℚ) ^ (-500 : Int)) ^ 2 ≤ s.toRat ^ 2 := pow_le_pow_left₀ h0 hlo 2
    have h3 : ((2 : ℚ) ^ (-500 : Int)) ^ 2 = 2 ^ (-1000 : Int) := by
      rw [← zpow_natCast, ← zpow_mul]; norm_num
    have h4 : (2 : ℚ) ^ (-1022 : Int) ≤ 2 ^ (-1000 : Int) :=
      zpow_le_zpow_right₀ (by norm_num) (by norm_num)
    linarith
  have hyn : posNormal y := posNormal_of_toRat_ge y hy (hys ▸ hsq)
  obtain ⟨hmul, hpos, n1, n2⟩ := mul_eq_roundNE_of_posNormal s s hs hs
  obtain ⟨my1, my2⟩ := mant_bounds_of_normal y hyn.2.1
  have hv : (y.mant : ℚ) * 2 ^ y.expo
      = ((s.mant * s.mant : Nat) : ℚ) * 2 ^ (s.expo + s.expo) := by
    rw [← toRat_of_pos y hyn.1, hys, toRat_of_pos s hs.1, zpow_add₀ h2ne]
    push_cast; ring
  have hr := roundNE_exact false (s.mant * s.mant) (s.expo + s.expo) hpos (by omega) (by omega)
    y.mant y.expo my1 my2 hv
  rw [hmul, toRat_of_pos _ (roundNE_sign _ _ _), hr, toRat_of_pos s hs.1,
    zpow_add₀ h2ne]
  push_cast; ring

end F64

/-! ## The area of a square against the square of its side -/

theorem tenth_toRat :
    (F64.ofBits 0x3FB999999999999A).toRat = 7205759403792794 / 2 ^ 56 := by
  rw [F64.toRat_of_pos _ (by decide)]
  have h1 : (F64.ofBits 0x3FB999999999999A).mant = 7205759403792794 := by decide
  have h2 : (F64.ofBits 0x3FB999999999999A).expo = -56 := by decide
  rw [h1, h2]
  norm_num

theorem tenth_square_toRat :
    (F64.ofBits 0x3F847AE147AE147C).toRat = 5764607523034236 / 2 ^ 59 := by
  rw [F64.toRat_of_pos _ (by decide)]
  have h1 : (F64.ofBits 0x3F847AE147AE147C).mant = 5764607523034236 := by decide
  have h2 : (F64.ofBits 0x3F847AE147AE147C).expo = -59 := by decide
  rw [h1, h2]
  norm_num

theorem hugeSide_toRat :
    (F64.ofBits 0x6570000000000000).toRat = 2 ^ (600 : Int) := by
  rw [F64.toRat_of_pos _ (by decide)]
  have h1 : (F64.ofBits 0x6570000000000000).mant = two52 := by decide
  have h2 : (F64.ofBits 0x6570000000000000).expo = 548 := by decide
  rw [h1, h2, F64.two52_cast, ← zpow_add₀ (by norm_num : (2 : ℚ) ≠ 0)]
  norm_num

set_option maxRecDepth 100000 in
/-- C3, as stated, fails: the side 0.1 (the float64 `0x3FB999999999999A`) is
positive and the area reported is the float64 `0x3F847AE147AE147C`, a finite
number that is not the square of the side; at the positive side `2^-600` the area
reported is 0, not the square; and at the finite side `2^600` it is +Inf. -/
theorem square_area_not_side_squared :
    (∃ q st1 a, NewSquare (F64.ofBits 0x3FB999999999999A) {} = .ok (q, st1) ∧
      Square.invokeGetArea q st1 = .ok (a, st1) ∧
      F64.gt (F64.ofBits 0x3FB999999999999A) (F64.zero false) = true ∧
      a = F64.ofBits 0x3F847AE147AE147C ∧ a.isFinite = true ∧
      a.toRat ≠ (F64.ofBits 0x3FB999999999999A).toRat ^ 2) ∧
    (∃ q st1 a, NewSquare (F64.ofBits 0x1A70000000000000) {} = .ok (q, st1) ∧
      Square.invokeGetArea q st1 = .ok (a, st1) ∧
      F64.gt (F64.ofBits 0x1A70000000000000) (F64.zero false) = true ∧
      a = F64.zero false ∧ a.toRat ≠ (F64.ofBits 0x1A70000000000000).toRat ^ 2) ∧
    (∃ q st1 a, NewSquare (F64.ofBits 0x6570000000000000) {} = .ok (q, st1) ∧
      Square.invokeGetArea q st1 = .ok (a, st1) ∧
      F64.gt (F64.ofBits 0x6570000000000000) (F64.zero false) = true ∧
      (F64.ofBits 0x6570000000000000).isFinite = true ∧
      a = F64.inf false ∧ a.isFinite = false) := by
  have h1 : F64.mul (F64.ofBits 0x3FB999999999999A) (F64.ofBits 0x3FB999999999999A)
      = F64.ofBits 0x3F847AE147AE147C := by decide!
  have h2 : F64.mul (F64.ofBits 0x1A70000000000000) (F64.ofBits 0x1A70000000000000)
      = F64.zero false := by decide!
  have h3 : F64.mul (F64.ofBits 0x6570000000000000) (F64.ofBits 0x6570000000000000)
      = F64.inf false := by decide!
  refine ⟨⟨_, _, _, NewSquare_run _ _, Square_invokeGetArea_new _ _, by decide, h1, ?_, ?_⟩,
    ⟨_, _, _, NewSquare_run _ _, Square_invokeGetArea_new _ _, by decide, h2, ?_⟩,
    ⟨_, _, _, NewSquare_run _ _, Square_invokeGetArea_new _ _, by decide, by decide, h3, ?_⟩⟩
  · rw [h1]; decide
  · rw [h1, tenth_square_toRat, tenth_toRat]
    norm_num
  · rw [h2, tinyRadius_toRat]
    have h0 : (F64.zero false).toRat = 0 := by
      have : (F64.zero false).mant = 0 := by decide
      simp [F64.toRat, this]
    rw [h0]
    have : (0 : ℚ) < ((2 : ℚ) ^ (-600 : Int)) ^ 2 := by
      have := zpow_pos (by norm_num : (0 : ℚ) < 2) (-600)
      positivity
    exact ne_of_lt this
  · rw [h3]; decide

/-- C3, amended: for every finite side `s` with `2^-500 ≤ s ≤ 2^500`, the area
reported by the square built by `NewSquare(s)` is the float64 product `s * s`, a
finite number within relative distance `2^-53` of the square of `s`, and it is
that square exactly whenever a float64 holds the square. -/
theorem square_area_rounds_side_squared (st : State) (s : F64) (hfin : s.isFinite = true)
    (hlo : (2 : ℚ) ^ (-500 : Int) ≤ s.toRat) (hhi : s.toRat ≤ (2 : ℚ) ^ (500 : Int)) :
    ∃ q st1 a, NewSquare s st = .ok (q, st1) ∧
      Square.invokeGetArea q st1 = .ok (a, st1) ∧ a = F64.mul s s ∧ a.isFinite = true ∧
      |a.toRat - s.toRat ^ 2| ≤ s.toRat ^ 2 / 2 ^ 53 ∧
      ((∃ y : F64, y.isFinite = true ∧ y.toRat = s.toRat ^ 2) → a.toRat = s.toRat ^ 2) :=
  ⟨_, _, _, NewSquare_run s st, Square_invokeGetArea_new s st, rfl,
    (square_area_accurate s hfin hlo hhi).1, (square_area_accurate s hfin hlo hhi).2,
    fun ⟨y, hy, hys⟩ => F64.mul_self_exact s hfin hlo hhi y hy hys⟩

set_option maxRecDepth 100000 in
/-- C3, amended, at the side 5 of `main`: the float64 25 holds the square, and the
area reported is exactly 25. -/
theorem square_area_rounds_side_squared_witness :
    (F64.ofNat 5).isFinite = true ∧ (2 : ℚ) ^ (-500 : Int) ≤ (F64.ofNat 5).toRat ∧
    (F64.ofNat 5).toRat ≤ (2 : ℚ) ^ (500 : Int) ∧
    ((F64.ofNat 25).isFinite = true ∧ (F64.ofNat 25).toRat = (F64.ofNat 5).toRat ^ 2) ∧
    ∃ q st1 a, NewSquare (F64.ofNat 5) {} = .ok (q, st1) ∧
      Square.invokeGetArea q st1 = .ok (a, st1) ∧ a.toRat = (F64.ofNat 5).toRat ^ 2 ∧
      a.toRat = 25 := by
  have h1 : (F64.ofNat 5).isFinite = true := by decide
  have h2 : (2 : ℚ) ^ (-500 : Int) ≤ (F64.ofNat 5).toRat := by
    rw [ofNat_five_toRat]
    calc (2 : ℚ) ^ (-500 : Int) ≤ 2 ^ (1 : Int) :=
          zpow_le_zpow_right₀ (by norm_num) (by norm_num)
      _ ≤ 5 := by norm_num
  have h3 : (F64.ofNat 5).toRat ≤ (2 : ℚ) ^ (500 : Int) := by
    rw [ofNat_five_toRat]
    calc (5 : ℚ) ≤ 2 ^ (3 : Int) := by norm_num
      _ ≤ 2 ^ (500 : Int) := zpow_le_zpow_right₀ (by norm_num) (by norm_num)
  have h4 : (F64.ofNat 25).isFinite = true := by decide
  have h5 : (F64.ofNat 25).toRat = (F64.ofNat 5).toRat ^ 2 := by
    rw [ofNat_twentyfive_toRat, ofNat_five_toRat]; norm_num
  obtain ⟨q, st1, a, a1, a2, _, _, _, a6⟩ :=
    square_area_rounds_side_squared {} (F64.ofNat 5) h1 h2 h3
  have h6 := a6 ⟨_, h4, h5⟩
  refine ⟨h1, h2, h3, ⟨h4, h5⟩, q, st1, a, a1, a2, h6, ?_⟩
  rw [h6, ofNat_five_toRat]; norm_num

/-! ## No function of the file writes to the state -/

theorem readOnly_pure {α : Type} (x : α) : ReadOnly (pure x : M α) := by
  intro st y st2 h
  simp only [pure, StateT.pure, Except.pure, Except.ok.injEq, Prod.mk.injEq] at h
  exact h.2.symm

theorem readOnly_bind {α β : Type} (m : M α) (f : α → M β) (hm : ReadOnly m)
    (hf : ∀ x, ReadOnly (f x)) : ReadOnly (m >>= f) := by
  intro st y st2 h
  simp only [bind, StateT.bind, Except.bind] at h
  cases hr : m st with
  | error e => rw [hr] at h; cases h
  | ok v =>
    rw [hr] at h
    obtain ⟨x, st1⟩ := v
    have h1 := hm st x st1 hr
    subst h1
    exact hf x _ y st2 h

theorem readOnly_error {α : Type} (m : M α) (h : ∀ st, ∃ e, m st = .error e) : ReadOnly m := by
  intro st x st2 hx
  obtain ⟨e, he⟩ := h st
  rw [he] at hx; cases hx

theorem readOnly_panicWrongType {α : Type} (this : Any) :
    ReadOnly (panicWrongType this : M α) :=
  readOnly_error _ (fun _ => ⟨_, rfl⟩)

theorem readOnly_lookup {α : Type} (sel : State → List α) (p : Ptr) :
    ReadOnly (fun st => (lookup (sel st) p).map (fun x => (x, st)) : M α) := by
  intro st x st2 h
  cases hl : lookup (sel st) p with
  | error e => simp only [hl, Except.map] at h; cases h
  | ok y =>
    simp only [hl, Except.map, Except.ok.injEq, Prod.mk.injEq] at h
    exact h.2.symm

theorem readOnly_readShape (p : Ptr) : ReadOnly (readShape p) :=
  readOnly_lookup (fun st => st.shapes) p

theorem readOnly_readCircle (p : Ptr) : ReadOnly (readCircle p) :=
  readOnly_lookup (fun st => st.circles) p

theorem readOnly_readSquare (p : Ptr) : ReadOnly (readSquare p) :=
  readOnly_lookup (fun st => st.squares) p

theorem readOnly_liftM {α : Type} (r : Except Err α) : ReadOnly (liftM r : M α) := by
  intro st x st2 h
  cases r with
  | error e => cases h
  | ok y =>
    have : (liftM (Except.ok y : Except Err α) : M α) st = .ok (y, st) := rfl
    rw [this] at h
    simp only [Except.ok.injEq, Prod.mk.injEq] at h
    exact h.2.symm

theorem readOnly_CircleGetArea (this : Any) : ReadOnly (CircleGetArea this) := by
  cases this with
  | circle p => exact readOnly_bind _ _ (readOnly_readCircle p) (fun _ => readOnly_pure _)
  | nil => exact readOnly_panicWrongType _
  | shape p => exact readOnly_panicWrongType _
  | square p => exact readOnly_panicWrongType _
  | other n => exact readOnly_panicWrongType _

theorem readOnly_SquareGetArea (this : Any) : ReadOnly (SquareGetArea this) := by
  cases this with
  | square p => exact readOnly_bind _ _ (readOnly_readSquare p) (fun _ => readOnly_pure _)
  | nil => exact readOnly_panicWrongType _
  | shape p => exact readOnly_panicWrongType _
  | circle p => exact readOnly_panicWrongType _
  | other n => exact readOnly_panicWrongType _

theorem readOnly_callArea (f : Option AreaFunc) (this : Any) : ReadOnly (callArea f this) := by
  cases f with
  | none => exact readOnly_error _ (fun _ => ⟨_, rfl⟩)
  | some g =>
    cases g with
    | CircleGetArea => exact readOnly_CircleGetArea this
    | SquareGetArea => exact readOnly_SquareGetArea this
    | ext g => exact readOnly_liftM _

theorem readOnly_ShapeIsLargerThan (this : Any) (area : F64) :
    ReadOnly (ShapeIsLargerThan this area) := by
  cases this with
  | shape p =>
    exact readOnly_bind _ _ (readOnly_readShape p) (fun shape =>
      readOnly_bind _ _ (readOnly_callArea _ _) (fun _ => readOnly_pure _))
  | nil => exact readOnly_panicWrongType _
  | circle p => exact readOnly_panicWrongType _
  | square p => exact readOnly_panicWrongType _
  | other n => exact readOnly_panicWrongType _

theorem readOnly_CircleIsLargerThanVia (call : Option CmpFunc → Any → F64 → M Bool)
    (hc : ∀ f this area, ReadOnly (call f this area)) (this : Any) (area : F64) :
    ReadOnly (CircleIsLargerThanVia call this area) := by
  cases this with
  | circle p =>
    exact readOnly_bind _ _ (readOnly_readCircle p) (fun circle =>
      readOnly_bind _ _ (readOnly_readShape _) (fun _ => hc _ _ _))
  | nil => exact readOnly_panicWrongType _
  | shape p => exact readOnly_panicWrongType _
  | square p => exact readOnly_panicWrongType _
  | other n => exact readOnly_panicWrongType _

theorem readOnly_SquareIsLargerThanVia (call : Option CmpFunc → Any → F64 → M Bool)
    (hc : ∀ f this area, ReadOnly (call f this area)) (this : Any) (area : F64) :
    ReadOnly (SquareIsLargerThanVia call this area) := by
  cases this with
  | square p =>
    exact readOnly_bind _ _ (readOnly_readSquare p) (fun square =>
      readOnly_bind _ _ (readOnly_readShape _) (fun _ => hc _ _ _))
  | nil => exact readOnly_panicWrongType _
  | shape p => exact readOnly_panicWrongType _
  | circle p => exact readOnly_panicWrongType _
  | other n => exact readOnly_panicWrongType _

theorem readOnly_callCmp (depth : Nat) :
    ∀ (f : Option CmpFunc) (this : Any) (area : F64), ReadOnly (callCmp depth f this area) := by
  induction depth with
  | zero => intro f this area; exact readOnly_error _ (fun _ => ⟨_, rfl⟩)
  | succ d ih =>
    intro f this area
    cases f with
    | none => exact readOnly_error _ (fun _ => ⟨_, rfl⟩)
    | some g =>
      cases g with
      | ShapeIsLargerThan => exact readOnly_ShapeIsLargerThan this area
      | CircleIsLargerThan => exact readOnly_CircleIsLargerThanVia _ ih this area
      | SquareIsLargerThan => exact readOnly_SquareIsLargerThanVia _ ih this area
      | ext g => exact readOnly_liftM _


theorem readOnly_fmtCircle (p : Ptr) : ReadOnly (fmtCircle p) := by
  cases p with
  | none => exact readOnly_pure _
  | some a => exact readOnly_bind _ _ (readOnly_readCircle _) (fun _ => readOnly_pure _)

theorem readOnly_fmtSquare (p : Ptr) : ReadOnly (fmtSquare p) := by
  cases p with
  | none => exact readOnly_pure _
  | some a => exact readOnly_bind _ _ (readOnly_readSquare _) (fun _ => readOnly_pure _)

/-- C11: none of `ShapeIsLargerThan`, `CircleIsLargerThan`, `CircleGetArea`,
`SquareIsLargerThan`, `SquareGetArea` and the display of a shape writes to the
state, whatever the value it is called on; and on a circle built by `NewCircle`
or a square built by `NewSquare` the calls `x.IsLargerThan(x, t)`, `x.GetArea(x)`
and the display return in the very state the constructor left, in which the
shape and its parent hold the fields the constructor gave them. -/
theorem no_mutation_after_construction (st : State) (r s t : F64) (depth : Nat) :
    (∀ (this : Any) (area : F64) (d : Nat),
      ReadOnly (ShapeIsLargerThan this area) ∧ ReadOnly (CircleIsLargerThan d this area) ∧
      ReadOnly (CircleGetArea this) ∧ ReadOnly (SquareIsLargerThan d this area) ∧
      ReadOnly (SquareGetArea this)) ∧
    (∀ p : Ptr, ReadOnly (fmtCircle p) ∧ ReadOnly (fmtSquare p)) ∧
    (∃ c st1 b a v, NewCircle r st = .ok (c, st1) ∧
      Circle.invokeIsLargerThan (depth + 2) c t st1 = .ok (b, st1) ∧
      Circle.invokeGetArea c st1 = .ok (a, st1) ∧
      fmtCircle c st1 = .ok (v, st1) ∧
      readCircle c st1 = .ok (⟨some st.shapes.length, r, some .CircleIsLargerThan,
        some .CircleGetArea⟩, st1) ∧
      readShape (some st.shapes.length) st1
        = .ok (⟨.circle c, some .ShapeIsLargerThan, some .CircleGetArea⟩, st1)) ∧
    (∃ q st1 b a v, NewSquare s st = .ok (q, st1) ∧
      Square.invokeIsLargerThan (depth + 2) q t st1 = .ok (b, st1) ∧
      Square.invokeGetArea q st1 = .ok (a, st1) ∧
      fmtSquare q st1 = .ok (v, st1) ∧
      readSquare q st1 = .ok (⟨some st.shapes.length, s, some .SquareIsLargerThan,
        some .SquareGetArea⟩, st1) ∧
      readShape (some st.shapes.length) st1
        = .ok (⟨.square q, some .ShapeIsLargerThan, some .SquareGetArea⟩, st1)) :=
  ⟨fun this area d => ⟨readOnly_ShapeIsLargerThan this area,
      readOnly_CircleIsLargerThanVia _ (readOnly_callCmp d) this area,
      readOnly_CircleGetArea this,
      readOnly_SquareIsLargerThanVia _ (readOnly_callCmp d) this area,
      readOnly_SquareGetArea this⟩,
    fun p => ⟨readOnly_fmtCircle p, readOnly_fmtSquare p⟩,
    ⟨_, _, _, _, _, NewCircle_run r st, Circle_invokeIsLargerThan_new r t st depth,
      Circle_invokeGetArea_new r st, fmtCircle_new r st, readCircle_new r st,
      readShape_newCircle r st⟩,
    ⟨_, _, _, _, _, NewSquare_run s st, Square_invokeIsLargerThan_new s t st depth,
      Square_invokeGetArea_new s st, fmtSquare_new s st, readSquare_new s st,
      readShape_newSquare s st⟩⟩

/-! ## Each variant function on the other kinds of values -/

theorem lookup_isOk_iff {α : Type} (xs : List α) (p : Ptr) :
    (∃ x, lookup xs p = .ok x) ↔ ∃ i, p = some i ∧ i < xs.length := by
  cases p with
  | none => simp [lookup]
  | some i =>
    by_cases h : i < xs.length
    · simp [lookup, h]
    · have : xs[i]? = none := by simp at h; simp [h]
      simp [lookup, h, this]

theorem CircleGetArea_isOk_iff (this : Any) (st : State) :
    (∃ a st2, CircleGetArea this st = .ok (a, st2))
      ↔ ∃ i, this = .circle (some i) ∧ i < st.circles.length := by
  cases this with
  | circle p =>
    have h := lookup_isOk_iff st.circles p
    constructor
    · rintro ⟨a, st2, ha⟩
      simp only [CircleGetArea, bind, StateT.bind, readCircle, Except.bind, Except.map] at ha
      cases hl : lookup st.circles p with
      | error e => rw [hl] at ha; cases ha
      | ok y =>
        obtain ⟨i, hi, hlt⟩ := h.mp ⟨y, hl⟩
        exact ⟨i, by rw [hi], hlt⟩
    · rintro ⟨i, hi, hlt⟩
      simp only [Any.circle.injEq] at hi
      obtain ⟨y, hy⟩ := h.mpr ⟨i, hi, hlt⟩
      refine ⟨F64.mul (F64.mul Pi y.radius) y.radius, st, ?_⟩
      simp [CircleGetArea, bind, StateT.bind, readCircle, Except.bind, Except.map, hy, pure,
        StateT.pure, Except.pure]
  | nil => constructor <;> rintro ⟨_, h⟩ <;> first | (obtain ⟨_, h⟩ := h; cases h) | cases h.1
  | shape p => constructor <;> rintro ⟨_, h⟩ <;> first | (obtain ⟨_, h⟩ := h; cases h) | cases h.1
  | square p => constructor <;> rintro ⟨_, h⟩ <;> first | (obtain ⟨_, h⟩ := h; cases h) | cases h.1
  | other n => constructor <;> rintro ⟨_, h⟩ <;> first | (obtain ⟨_, h⟩ := h; cases h) | cases h.1

theorem SquareGetArea_isOk_iff (this : Any) (st : State) :
    (∃ a st2, SquareGetArea this st = .ok (a, st2))
      ↔ ∃ i, this = .square (some i) ∧ i < st.squares.length := by
  cases this with
  | square p =>
    have h := lookup_isOk_iff st.squares p
    constructor
    · rintro ⟨a, st2, ha⟩
      simp only [SquareGetArea, bind, StateT.bind, readSquare, Except.bind, Except.map] at ha
      cases hl : lookup st.squares p with
      | error e => rw [hl] at ha; cases ha
      | ok y =>
        obtain ⟨i, hi, hlt⟩ := h.mp ⟨y, hl⟩
        exact ⟨i, by rw [hi], hlt⟩
    · rintro ⟨i, hi, hlt⟩
      simp only [Any.square.injEq] at hi
      obtain ⟨y, hy⟩ := h.mpr ⟨i, hi, hlt⟩
      refine ⟨F64.mul y.side y.side, st, ?_⟩
      simp [SquareGetArea, bind, StateT.bind, readSquare, Except.bind, Except.map, hy, pure,
        StateT.pure, Except.pure]
  | nil => constructor <;> rintro ⟨_, h⟩ <;> first | (obtain ⟨_, h⟩ := h; cases h) | cases h.1
  | shape p => constructor <;> rintro ⟨_, h⟩ <;> first | (obtain ⟨_, h⟩ := h; cases h) | cases h.1
  | circle p => constructor <;> rintro ⟨_, h⟩ <;> first | (obtain ⟨_, h⟩ := h; cases h) | cases h.1
  | other n => constructor <;> rintro ⟨_, h⟩ <;> first | (obtain ⟨_, h⟩ := h; cases h) | cases h.1

theorem circle_functions_wrong_type (this : Any) (h : ∀ p, this ≠ .circle p) (area : F64)
    (st : State) (depth : Nat) :
    CircleGetArea this st = .error (.wrongType ("wrong type passed " ++ this.typeName)) ∧
    CircleIsLargerThan depth this area st
      = .error (.wrongType ("wrong type passed " ++ this.typeName)) := by
  cases this with
  | circle p => exact absurd rfl (h p)
  | nil => exact ⟨rfl, rfl⟩
  | shape p => exact ⟨rfl, rfl⟩
  | square p => exact ⟨rfl, rfl⟩
  | other n => exact ⟨rfl, rfl⟩

theorem square_functions_wrong_type (this : Any) (h : ∀ p, this ≠ .square p) (area : F64)
    (st : State) (depth : Nat) :
    SquareGetArea this st = .error (.wrongType ("wrong type passed " ++ this.typeName)) ∧
    SquareIsLargerThan depth this area st
      = .error (.wrongType ("wrong type passed " ++ this.typeName)) := by
  cases this with
  | square p => exact absurd rfl (h p)
  | nil => exact ⟨rfl, rfl⟩
  | shape p => exact ⟨rfl, rfl⟩
  | circle p => exact ⟨rfl, rfl⟩
  | other n => exact ⟨rfl, rfl⟩

theorem lookup_append_pair_fst {α : Type} (xs : List α) (a b : α) :
    lookup (xs ++ [a, b]) (some xs.length) = .ok a := by
  have h : (xs ++ [a, b])[xs.length]? = some a := by
    rw [List.getElem?_append_right (le_refl _)]; simp
  simp only [lookup, h]

theorem lookup_append_pair_snd {α : Type} (xs : List α) (a b : α) :
    lookup (xs ++ [a, b]) (some (xs.length + 1)) = .ok b := by
  have h : (xs ++ [a, b])[xs.length + 1]? = some b := by
    rw [List.getElem?_append_right (Nat.le_succ _)]; simp
  simp only [lookup, h]

theorem lookup_append_one {α : Type} (xs : List α) (a : α) :
    lookup (xs ++ [a]) (some xs.length) = .ok a := by
  simp [lookup]

/-- The state two constructors leave, a circle then a square. -/
theorem circle_then_square_run (r s : F64) (st : State) :
    NewCircle r st = .ok (some st.circles.length, afterNewCircle r st) ∧
    NewSquare s (afterNewCircle r st)
      = .ok (some st.squares.length, afterNewSquare s (afterNewCircle r st)) := by
  refine ⟨NewCircle_run r st, ?_⟩
  rw [NewSquare_run]; rfl

theorem own_variant_in_both (r s t : F64) (st : State) (depth : Nat) :
    CircleGetArea (.circle (some st.circles.length)) (afterNewSquare s (afterNewCircle r st))
      = .ok (F64.mul (F64.mul Pi r) r, afterNewSquare s (afterNewCircle r st)) ∧
    CircleIsLargerThan (depth + 1) (.circle (some st.circles.length)) t
        (afterNewSquare s (afterNewCircle r st))
      = .ok (F64.gt (F64.mul (F64.mul Pi r) r) t, afterNewSquare s (afterNewCircle r st)) ∧
    SquareGetArea (.square (some st.squares.length)) (afterNewSquare s (afterNewCircle r st))
      = .ok (F64.mul s s, afterNewSquare s (afterNewCircle r st)) ∧
    SquareIsLargerThan (depth + 1) (.square (some st.squares.length)) t
        (afterNewSquare s (afterNewCircle r st))
      = .ok (F64.gt (F64.mul s s) t, afterNewSquare s (afterNewCircle r st)) := by
  refine ⟨?_, ?_, ?_, ?_⟩
  · simp [CircleGetArea, readCircle, bind, StateT.bind, Except.bind, Except.map, lookup,
      pure, StateT.pure, Except.pure, afterNewCircle, afterNewSquare]
  · simp [CircleIsLargerThan, callCmp, CircleIsLargerThanVia, ShapeIsLargerThan, callArea,
      CircleGetArea, readCircle, readShape, bind, StateT.bind, Except.bind, Except.map,
      lookup_append_pair_fst, lookup_append_one,
      pure, StateT.pure, Except.pure, afterNewCircle, afterNewSquare]
  · simp [SquareGetArea, readSquare, bind, StateT.bind, Except.bind, Except.map, lookup,
      pure, StateT.pure, Except.pure, afterNewCircle, afterNewSquare]
  · simp [SquareIsLargerThan, callCmp, SquareIsLargerThanVia, ShapeIsLargerThan, callArea,
      SquareGetArea, readSquare, readShape, bind, StateT.bind, Except.bind, Except.map,
      lookup_append_pair_snd, lookup_append_one,
      pure, StateT.pure, Except.pure, afterNewCircle, afterNewSquare]

theorem circle_field_on_square (r s t : F64) (st : State) (depth : Nat) :
    Circle.invokeIsLargerThanOn (depth + 1) (some st.circles.length)
        (.square (some st.squares.length)) t (afterNewSquare s (afterNewCircle r st))
      = .error (.wrongType "wrong type passed *main.Square") ∧
    Square.invokeIsLargerThanOn (depth + 1) (some st.squares.length)
        (.circle (some st.circles.length)) t (afterNewSquare s (afterNewCircle r st))
      = .error (.wrongType "wrong type passed *main.Circle") := by
  constructor
  · simp [Circle.invokeIsLargerThanOn, callCmp, CircleIsLargerThanVia, panicWrongType,
      readCircle, bind, StateT.bind, Except.bind, Except.map, lookup,
      afterNewCircle, afterNewSquare]
    rfl
  · simp [Square.invokeIsLargerThanOn, callCmp, SquareIsLargerThanVia, panicWrongType,
      readSquare, bind, StateT.bind, Except.bind, Except.map, lookup,
      afterNewCircle, afterNewSquare]
    rfl

set_option maxRecDepth 100000 in
/-- A `Circle` no constructor has filled in, the `&Circle{}` of the first line of
`NewCircle`, and a nil `*Circle`: both pass the type assertion of the circle
functions.  On the first `CircleGetArea` returns 0 and `CircleIsLargerThan` stops
on the nil `parent`; on the second both stop on the nil pointer. -/
theorem circle_functions_on_unbuilt_circle (st : State) (t : F64) (depth : Nat) :
    (∃ c st1, allocCircle st = .ok (c, st1) ∧
      CircleGetArea (.circle c) st1 = .ok (F64.zero false, st1) ∧
      CircleIsLargerThan depth (.circle c) t st1 = .error .nilDereference) ∧
    CircleGetArea (.circle none) st = .error .nilDereference ∧
    CircleIsLargerThan depth (.circle none) t st = .error .nilDereference := by
  have hz : F64.mul (F64.mul Pi (F64.zero false)) (F64.zero false) = F64.zero false := by
    decide!
  refine ⟨⟨_, _, rfl, ?_, ?_⟩, rfl, rfl⟩
  · simp [CircleGetArea, readCircle, bind, StateT.bind, Except.bind, Except.map, lookup,
      pure, StateT.pure, Except.pure, hz]
  · simp [CircleIsLargerThan, CircleIsLargerThanVia, readCircle, readShape, bind, StateT.bind,
      Except.bind, Except.map, lookup]

theorem square_functions_on_unbuilt_square (st : State) (t : F64) (depth : Nat) :
    (∃ q st1, allocSquare st = .ok (q, st1) ∧
      SquareGetArea (.square q) st1 = .ok (F64.zero false, st1) ∧
      SquareIsLargerThan depth (.square q) t st1 = .error .nilDereference) ∧
    SquareGetArea (.square none) st = .error .nilDereference ∧
    SquareIsLargerThan depth (.square none) t st = .error .nilDereference := by
  have hz : F64.mul (F64.zero false) (F64.zero false) = F64.zero false := by
    decide
  refine ⟨⟨_, _, rfl, ?_, ?_⟩, rfl, rfl⟩
  · simp [SquareGetArea, readSquare, bind, StateT.bind, Except.bind, Except.map, lookup,
      pure, StateT.pure, Except.pure, hz]
  · simp [SquareIsLargerThan, SquareIsLargerThanVia, readSquare, readShape, bind, StateT.bind,
      Except.bind, Except.map, lookup]

/-- C12, as stated, fails: on the `Circle` that `&Circle{}` allocates in the
initial state `CircleGetArea` returns a result (0) and `CircleIsLargerThan` does
not, it stops on the nil `parent`, so the two functions do not return on the same
values; and on a nil `*Circle`, whose dynamic type is `*Circle`, neither returns.
The same holds of the square functions. -/
theorem variant_functions_not_exactly_on_own_variant :
    (∃ c st1, allocCircle {} = .ok (c, st1) ∧
      CircleGetArea (.circle c) st1 = .ok (F64.zero false, st1) ∧
      CircleIsLargerThan 2 (.circle c) (F64.ofNat 16) st1 = .error .nilDereference) ∧
    CircleGetArea (.circle none) {} = .error .nilDereference ∧
    CircleIsLargerThan 2 (.circle none) (F64.ofNat 16) {} = .error .nilDereference ∧
    (∃ q st1, allocSquare {} = .ok (q, st1) ∧
      SquareGetArea (.square q) st1 = .ok (F64.zero false, st1) ∧
      SquareIsLargerThan 2 (.square q) (F64.ofNat 16) st1 = .error .nilDereference) ∧
    SquareGetArea (.square none) {} = .error .nilDereference ∧
    SquareIsLargerThan 2 (.square none) (F64.ofNat 16) {} = .error .nilDereference :=
  ⟨(circle_functions_on_unbuilt_circle {} (F64.ofNat 16) 2).1,
    (circle_functions_on_unbuilt_circle {} (F64.ofNat 16) 2).2.1,
    (circle_functions_on_unbuilt_circle {} (F64.ofNat 16) 2).2.2,
    (square_functions_on_unbuilt_square {} (F64.ofNat 16) 2).1,
    (square_functions_on_unbuilt_square {} (F64.ofNat 16) 2).2.1,
    (square_functions_on_unbuilt_square {} (F64.ofNat 16) 2).2.2⟩

/-- C12, amended: `CircleGetArea` and `CircleIsLargerThan` panic with the
type-mismatch error on every value whose dynamic type is not `*Circle`, and
`SquareGetArea` and `SquareIsLargerThan` on every value whose dynamic type is not
`*Square`; they return a result only on a value of their own pointer type,
`CircleGetArea` (`SquareGetArea`) exactly on a non-nil pointer to a `Circle`
(`Square`) of the state.  With a circle `c` and a square `q` built by the
constructors, each function returns on its own variant and panics on the other
variant and on a `*Shape`, and `c.IsLargerThan(q, t)` panics. -/
theorem variant_functions_accept_own_variant_only (st : State) (r s t : F64) (depth : Nat) :
    (∀ (this : Any) (area : F64) (d : Nat), (∀ p, this ≠ .circle p) →
      CircleGetArea this st = .error (.wrongType ("wrong type passed " ++ this.typeName)) ∧
      CircleIsLargerThan d this area st
        = .error (.wrongType ("wrong type passed " ++ this.typeName))) ∧
    (∀ (this : Any) (area : F64) (d : Nat), (∀ p, this ≠ .square p) →
      SquareGetArea this st = .error (.wrongType ("wrong type passed " ++ this.typeName)) ∧
      SquareIsLargerThan d this area st
        = .error (.wrongType ("wrong type passed " ++ this.typeName))) ∧
    (∀ this : Any, (∃ a st2, CircleGetArea this st = .ok (a, st2))
      ↔ ∃ i, this = .circle (some i) ∧ i < st.circles.length) ∧
    (∀ this : Any, (∃ a st2, SquareGetArea this st = .ok (a, st2))
      ↔ ∃ i, this = .square (some i) ∧ i < st.squares.length) ∧
    (∀ (this : Any) (area : F64) (d : Nat),
      (∃ b st2, CircleIsLargerThan d this area st = .ok (b, st2)) → ∃ p, this = .circle p) ∧
    (∀ (this : Any) (area : F64) (d : Nat),
      (∃ b st2, SquareIsLargerThan d this area st = .ok (b, st2)) → ∃ p, this = .square p) ∧
    (∃ c st1 q st2, NewCircle r st = .ok (c, st1) ∧ NewSquare s st1 = .ok (q, st2) ∧
      (∃ a b, CircleGetArea (.circle c) st2 = .ok (a, st2) ∧
        CircleIsLargerThan (depth + 1) (.circle c) t st2 = .ok (b, st2)) ∧
      (∃ a b, SquareGetArea (.square q) st2 = .ok (a, st2) ∧
        SquareIsLargerThan (depth + 1) (.square q) t st2 = .ok (b, st2)) ∧
      CircleGetArea (.square q) st2 = .error (.wrongType "wrong type passed *main.Square") ∧
      CircleIsLargerThan depth (.square q) t st2
        = .error (.wrongType "wrong type passed *main.Square") ∧
      SquareGetArea (.circle c) st2 = .error (.wrongType "wrong type passed *main.Circle") ∧
      SquareIsLargerThan depth (.circle c) t st2
        = .error (.wrongType "wrong type passed *main.Circle") ∧
      (∀ p : Ptr,
        CircleGetArea (.shape p) st2 = .error (.wrongType "wrong type passed *main.Shape") ∧
        CircleIsLargerThan depth (.shape p) t st2
          = .error (.wrongType "wrong type passed *main.Shape") ∧
        SquareGetArea (.shape p) st2 = .error (.wrongType "wrong type passed *main.Shape") ∧
        SquareIsLargerThan depth (.shape p) t st2
          = .error (.wrongType "wrong type passed *main.Shape")) ∧
      Circle.invokeIsLargerThanOn (depth + 1) c (.square q) t st2
        = .error (.wrongType "wrong type passed *main.Square") ∧
      Square.invokeIsLargerThanOn (depth + 1) q (.circle c) t st2
        = .error (.wrongType "wrong type passed *main.Circle")) := by
  refine ⟨fun this area d h => circle_functions_wrong_type this h area st d,
    fun this area d h => square_functions_wrong_type this h area st d,
    fun this => CircleGetArea_isOk_iff this st, fun this => SquareGetArea_isOk_iff this st,
    ?_, ?_, ?_⟩
  · rintro this area d ⟨b, st2, h⟩
    cases this with
    | circle p => exact ⟨p, rfl⟩
    | nil => cases h
    | shape p => cases h
    | square p => cases h
    | other n => cases h
  · rintro this area d ⟨b, st2, h⟩
    cases this with
    | square p => exact ⟨p, rfl⟩
    | nil => cases h
    | shape p => cases h
    | circle p => cases h
    | other n => cases h
  · obtain ⟨h1, h2, h3, h4⟩ := own_variant_in_both r s t st depth
    obtain ⟨h5, h6⟩ := circle_field_on_square r s t st depth
    exact ⟨_, _, _, _, (circle_then_square_run r s st).1, (circle_then_square_run r s st).2,
      ⟨_, _, h1, h2⟩, ⟨_, _, h3, h4⟩, rfl, rfl, rfl, rfl, fun p => ⟨rfl, rfl, rfl, rfl⟩, h5, h6⟩

/-- C12, amended, in the state that holds the circle of radius 2 and the square
of side 5 of `main`: the circle functions on the square and the square functions
on the circle stop with the type-mismatch error, and each `GetArea` returns on
its own variant. -/
theorem variant_functions_accept_own_variant_only_witness :
    ((∀ p, Any.square (some 0) ≠ Any.circle p) ∧
      CircleGetArea (.square (some 0))
          (afterNewSquare (F64.ofNat 5) (afterNewCircle (F64.ofNat 2) {}))
        = .error (.wrongType ("wrong type passed " ++ (Any.square (some 0)).typeName)) ∧
      CircleIsLargerThan 1 (.square (some 0)) (F64.ofNat 16)
          (afterNewSquare (F64.ofNat 5) (afterNewCircle (F64.ofNat 2) {}))
        = .error (.wrongType ("wrong type passed " ++ (Any.square (some 0)).typeName))) ∧
    ((∀ p, Any.circle (some 0) ≠ Any.square p) ∧
      SquareGetArea (.circle (some 0))
          (afterNewSquare (F64.ofNat 5) (afterNewCircle (F64.ofNat 2) {}))
        = .error (.wrongType ("wrong type passed " ++ (Any.circle (some 0)).typeName)) ∧
      SquareIsLargerThan 1 (.circle (some 0)) (F64.ofNat 16)
          (afterNewSquare (F64.ofNat 5) (afterNewCircle (F64.ofNat 2) {}))
        = .error (.wrongType ("wrong type passed " ++ (Any.circle (some 0)).typeName))) ∧
    ((∃ i, Any.circle (some 0) = .circle (some i) ∧
        i < (afterNewSquare (F64.ofNat 5) (afterNewCircle (F64.ofNat 2) {})).circles.length) ∧
      ∃ a st2, CircleGetArea (.circle (some 0))
        (afterNewSquare (F64.ofNat 5) (afterNewCircle (F64.ofNat 2) {})) = .ok (a, st2)) :=
  have hc : ∃ i, Any.circle (some 0) = .circle (some i) ∧
      i < (afterNewSquare (F64.ofNat 5) (afterNewCircle (F64.ofNat 2) {})).circles.length :=
    ⟨0, rfl, by decide⟩
  ⟨⟨fun _ h => Any.noConfusion h,
      (variant_functions_accept_own_variant_only
        (afterNewSquare (F64.ofNat 5) (afterNewCircle (F64.ofNat 2) {}))
        (F64.ofNat 2) (F64.ofNat 5) (F64.ofNat 16) 0).1
        (.square (some 0)) (F64.ofNat 16) 1 (fun _ h => Any.noConfusion h)⟩,
    ⟨fun _ h => Any.noConfusion h,
      (variant_functions_accept_own_variant_only
        (afterNewSquare (F64.ofNat 5) (afterNewCircle (F64.ofNat 2) {}))
        (F64.ofNat 2) (F64.ofNat 5) (F64.ofNat 16) 0).2.1
        (.circle (some 0)) (F64.ofNat 16) 1 (fun _ h => Any.noConfusion h)⟩,
    ⟨hc, ((variant_functions_accept_own_variant_only
        (afterNewSquare (F64.ofNat 5) (afterNewCircle (F64.ofNat 2) {}))
        (F64.ofNat 2) (F64.ofNat 5) (F64.ofNat 16) 0).2.2.1 (.circle (some 0))).mpr hc⟩⟩

/-! ## A `Shape` on its own -/

theorem readShape_newShape (v : Any) (st : State) :
    readShape (some st.shapes.length)
        { st with shapes := st.shapes ++ [⟨v, some .ShapeIsLargerThan, none⟩] }
      = .ok (⟨v, some .ShapeIsLargerThan, none⟩,
          { st with shapes := st.shapes ++ [⟨v, some .ShapeIsLargerThan, none⟩] }) := by
  simp [readShape, Except.map, lookup]

theorem ShapeIsLargerThan_newShape (v : Any) (t : F64) (st : State) :
    ShapeIsLargerThan (.shape (some st.shapes.length)) t
        { st with shapes := st.shapes ++ [⟨v, some .ShapeIsLargerThan, none⟩] }
      = .error .nilDereference := by
  simp [ShapeIsLargerThan, callArea, readShape, bind, StateT.bind, Except.bind, Except.map,
    lookup]
  rfl

theorem Shape_invokeIsLargerThan_newShape (v : Any) (t : F64) (st : State) (depth : Nat) :
    Shape.invokeIsLargerThan (depth + 1) (some st.shapes.length) t
        { st with shapes := st.shapes ++ [⟨v, some .ShapeIsLargerThan, none⟩] }
      = .error .nilDereference := by
  simp [Shape.invokeIsLargerThan, callCmp, ShapeIsLargerThan, callArea, readShape, bind,
    StateT.bind, Except.bind, Except.map, lookup]
  rfl

theorem Shape_invokeIsLargerThan_newCircle (r t : F64) (st : State) (depth : Nat) :
    Shape.invokeIsLargerThan (depth + 1) (some st.shapes.length) t (afterNewCircle r st)
      = .ok (F64.gt (F64.mul (F64.mul Pi r) r) t, afterNewCircle r st) := by
  simp [Shape.invokeIsLargerThan, callCmp, ShapeIsLargerThan, callArea, CircleGetArea,
    readCircle, readShape, bind, StateT.bind, Except.bind, Except.map, lookup, pure,
    StateT.pure, Except.pure, afterNewCircle]

theorem Shape_invokeIsLargerThan_newSquare (s t : F64) (st : State) (depth : Nat) :
    Shape.invokeIsLargerThan (depth + 1) (some st.shapes.length) t (afterNewSquare s st)
      = .ok (F64.gt (F64.mul s s) t, afterNewSquare s st) := by
  simp [Shape.invokeIsLargerThan, callCmp, ShapeIsLargerThan, callArea, SquareGetArea,
    readSquare, readShape, bind, StateT.bind, Except.bind, Except.map, lookup, pure,
    StateT.pure, Except.pure, afterNewSquare]

/-- C13: `NewShape(v)` sets the fields `instance` and `IsLargerThan` and leaves
`GetArea` nil, so that on the shape it returns, for every `v` and every threshold,
`sh.IsLargerThan(sh, t)` passes the type check of `ShapeIsLargerThan` and stops on
the call of the nil `GetArea`, with the run-time panic and not the type-mismatch
one; the same call on the parent of a circle or of a square, whose constructor
has assigned `parent.GetArea`, returns. -/
theorem bare_shape_has_no_area (st : State) (v : Any) (r s t : F64) (depth : Nat) :
    (∃ sh st1 shape, NewShape v st = .ok (sh, st1) ∧ readShape sh st1 = .ok (shape, st1) ∧
      shape.instance_ = v ∧ shape.IsLargerThan = some .ShapeIsLargerThan ∧
      shape.GetArea = none ∧
      Shape.invokeIsLargerThan (depth + 1) sh t st1 = .error .nilDereference ∧
      ShapeIsLargerThan (.shape sh) t st1 = .error .nilDereference) ∧
    (∃ c st1 circle b, NewCircle r st = .ok (c, st1) ∧ readCircle c st1 = .ok (circle, st1) ∧
      Shape.invokeIsLargerThan (depth + 1) circle.parent t st1 = .ok (b, st1)) ∧
    (∃ q st1 square b, NewSquare s st = .ok (q, st1) ∧ readSquare q st1 = .ok (square, st1) ∧
      Shape.invokeIsLargerThan (depth + 1) square.parent t st1 = .ok (b, st1)) :=
  ⟨⟨_, _, _, NewShape_run v st, readShape_newShape v st, rfl, rfl, rfl,
      Shape_invokeIsLargerThan_newShape v t st depth, ShapeIsLargerThan_newShape v t st⟩,
    ⟨_, _, _, _, NewCircle_run r st, readCircle_new r st,
      Shape_invokeIsLargerThan_newCircle r t st depth⟩,
    ⟨_, _, _, _, NewSquare_run s st, readSquare_new s st,
      Shape_invokeIsLargerThan_newSquare s t st depth⟩⟩

/-! ## Replacing the function held by a `GetArea` field -/

theorem Circle_setGetArea_new (r : F64) (f : Option AreaFunc) (st : State) :
    Circle.setGetArea (some st.circles.length) f (afterNewCircle r st)
      = .ok ((), afterCircleSetGetArea r f st) := by
  simp [Circle.setGetArea, writeCircle, update, Except.map, afterNewCircle,
    afterCircleSetGetArea]

theorem Circle_setParentGetArea_new (r : F64) (f : Option AreaFunc) (st : State) :
    Circle.setParentGetArea (some st.circles.length) f (afterNewCircle r st)
      = .ok ((), afterCircleSetParentGetArea r f st) := by
  simp [Circle.setParentGetArea, readCircle, writeShape, update, lookup, bind, StateT.bind,
    Except.bind, Except.map, afterNewCircle, afterCircleSetParentGetArea]

theorem Square_setGetArea_new (s : F64) (f : Option AreaFunc) (st : State) :
    Square.setGetArea (some st.squares.length) f (afterNewSquare s st)
      = .ok ((), afterSquareSetGetArea s f st) := by
  simp [Square.setGetArea, writeSquare, update, Except.map, afterNewSquare,
    afterSquareSetGetArea]

theorem Square_setParentGetArea_new (s : F64) (f : Option AreaFunc) (st : State) :
    Square.setParentGetArea (some st.squares.length) f (afterNewSquare s st)
      = .ok ((), afterSquareSetParentGetArea s f st) := by
  simp [Square.setParentGetArea, readSquare, writeShape, update, lookup, bind, StateT.bind,
    Except.bind, Except.map, afterNewSquare, afterSquareSetParentGetArea]

theorem Circle_invokeIsLargerThan_afterSetGetArea (r t : F64) (f : Option AreaFunc)
    (st : State) (depth : Nat) :
    Circle.invokeIsLargerThan (depth + 2) (some st.circles.length) t
        (afterCircleSetGetArea r f st)
      = .ok (F64.gt (F64.mul (F64.mul Pi r) r) t, afterCircleSetGetArea r f st) := by
  simp [Circle.invokeIsLargerThan, callCmp, CircleIsLargerThanVia, ShapeIsLargerThan, callArea,
    CircleGetArea, readCircle, readShape, bind, StateT.bind, Except.bind, Except.map, lookup,
    pure, StateT.pure, Except.pure, afterNewCircle, afterCircleSetGetArea]

theorem Square_invokeIsLargerThan_afterSetGetArea (s t : F64) (f : Option AreaFunc)
    (st : State) (depth : Nat) :
    Square.invokeIsLargerThan (depth + 2) (some st.squares.length) t
        (afterSquareSetGetArea s f st)
      = .ok (F64.gt (F64.mul s s) t, afterSquareSetGetArea s f st) := by
  simp [Square.invokeIsLargerThan, callCmp, SquareIsLargerThanVia, ShapeIsLargerThan, callArea,
    SquareGetArea, readSquare, readShape, bind, StateT.bind, Except.bind, Except.map, lookup,
    pure, StateT.pure, Except.pure, afterNewSquare, afterSquareSetGetArea]

theorem Circle_invokeIsLargerThan_afterSetParentGetArea (r t : F64) (f : Option AreaFunc)
    (st : State) (depth : Nat) :
    Circle.invokeIsLargerThan (depth + 2) (some st.circles.length) t
        (afterCircleSetParentGetArea r f st)
      = (callArea f (.circle (some st.circles.length)) >>= fun a => pure (F64.gt a t))
          (afterCircleSetParentGetArea r f st) := by
  simp [Circle.invokeIsLargerThan, callCmp, CircleIsLargerThanVia, ShapeIsLargerThan,
    readCircle, readShape, bind, StateT.bind, Except.bind, Except.map, lookup,
    pure, StateT.pure, Except.pure, afterNewCircle, afterCircleSetParentGetArea]

theorem Square_invokeIsLargerThan_afterSetParentGetArea (s t : F64) (f : Option AreaFunc)
    (st : State) (depth : Nat) :
    Square.invokeIsLargerThan (depth + 2) (some st.squares.length) t
        (afterSquareSetParentGetArea s f st)
      = (callArea f (.square (some st.squares.length)) >>= fun a => pure (F64.gt a t))
          (afterSquareSetParentGetArea s f st) := by
  simp [Square.invokeIsLargerThan, callCmp, SquareIsLargerThanVia, ShapeIsLargerThan,
    readSquare, readShape, bind, StateT.bind, Except.bind, Except.map, lookup,
    pure, StateT.pure, Except.pure, afterNewSquare, afterSquareSetParentGetArea]

theorem callArea_ext_bind (g : Any → Except Err F64) (this : Any) (a t : F64) (st : State)
    (h : g this = .ok a) :
    (callArea (some (.ext g)) this >>= fun a => pure (F64.gt a t)) st
      = .ok (F64.gt a t, st) := by
  simp only [callArea, bind, StateT.bind, h]
  rfl

/-- C14: on a circle built by `NewCircle(r)` (resp. a square built by
`NewSquare(s)`), for every threshold and every function value `f`, nil included,
`c.IsLargerThan(c, t)` returns the same after the assignment `c.GetArea = f` as
before it, and after the assignment `c.parent.GetArea = f` it is `f(c) > t`: it
calls `f` on `c` and compares what `f` returns with `t`. -/
theorem comparison_dispatches_through_parent (st : State) (r s t : F64) (depth : Nat)
    (f : Option AreaFunc) :
    (∃ c st1 b, NewCircle r st = .ok (c, st1) ∧
      Circle.invokeIsLargerThan (depth + 2) c t st1 = .ok (b, st1) ∧
      (∃ st2, Circle.setGetArea c f st1 = .ok ((), st2) ∧
        Circle.invokeIsLargerThan (depth + 2) c t st2 = .ok (b, st2)) ∧
      (∃ st3, Circle.setParentGetArea c f st1 = .ok ((), st3) ∧
        Circle.invokeIsLargerThan (depth + 2) c t st3
          = (callArea f (.circle c) >>= fun a => pure (F64.gt a t)) st3) ∧
      (∀ (g : Any → Except Err F64) (a : F64), g (.circle c) = .ok a →
        ∃ st3, Circle.setParentGetArea c (some (.ext g)) st1 = .ok ((), st3) ∧
          Circle.invokeIsLargerThan (depth + 2) c t st3 = .ok (F64.gt a t, st3))) ∧
    (∃ q st1 b, NewSquare s st = .ok (q, st1) ∧
      Square.invokeIsLargerThan (depth + 2) q t st1 = .ok (b, st1) ∧
      (∃ st2, Square.setGetArea q f st1 = .ok ((), st2) ∧
        Square.invokeIsLargerThan (depth + 2) q t st2 = .ok (b, st2)) ∧
      (∃ st3, Square.setParentGetArea q f st1 = .ok ((), st3) ∧
        Square.invokeIsLargerThan (depth + 2) q t st3
          = (callArea f (.square q) >>= fun a => pure (F64.gt a t)) st3) ∧
      (∀ (g : Any → Except Err F64) (a : F64), g (.square q) = .ok a →
        ∃ st3, Square.setParentGetArea q (some (.ext g)) st1 = .ok ((), st3) ∧
          Square.invokeIsLargerThan (depth + 2) q t st3 = .ok (F64.gt a t, st3))) := by
  constructor
  · refine ⟨_, _, _, NewCircle_run r st, Circle_invokeIsLargerThan_new r t st depth,
      ⟨_, Circle_setGetArea_new r f st, Circle_invokeIsLargerThan_afterSetGetArea r t f st depth⟩,
      ⟨_, Circle_setParentGetArea_new r f st,
        Circle_invokeIsLargerThan_afterSetParentGetArea r t f st depth⟩, ?_⟩
    intro g a hg
    refine ⟨_, Circle_setParentGetArea_new r _ st, ?_⟩
    rw [Circle_invokeIsLargerThan_afterSetParentGetArea, callArea_ext_bind g _ a t _ hg]
  · refine ⟨_, _, _, NewSquare_run s st, Square_invokeIsLargerThan_new s t st depth,
      ⟨_, Square_setGetArea_new s f st, Square_invokeIsLargerThan_afterSetGetArea s t f st depth⟩,
      ⟨_, Square_setParentGetArea_new s f st,
        Square_invokeIsLargerThan_afterSetParentGetArea s t f st depth⟩, ?_⟩
    intro g a hg
    refine ⟨_, Square_setParentGetArea_new s _ st, ?_⟩
    rw [Square_invokeIsLargerThan_afterSetParentGetArea, callArea_ext_bind g _ a t _ hg]

set_option maxRecDepth 100000 in
/-- C14 at the circle of radius 2 of `main`, the threshold 16 and the function
that returns 100 on every value: assigned to `c.parent.GetArea` it turns the
comparison, false before, into `100 > 16`, which is true. -/
theorem comparison_dispatches_through_parent_witness :
    Circle.invokeIsLargerThan 2 (some 0) (F64.ofNat 16) (afterNewCircle (F64.ofNat 2) {})
      = .ok (false, afterNewCircle (F64.ofNat 2) {}) ∧
    (fun _ => .ok (F64.ofNat 100) : Any → Except Err F64) (.circle (some 0))
      = .ok (F64.ofNat 100) ∧
    F64.gt (F64.ofNat 100) (F64.ofNat 16) = true ∧
    ∃ st3, Circle.setParentGetArea (some 0) (some (.ext (fun _ => .ok (F64.ofNat 100))))
        (afterNewCircle (F64.ofNat 2) {}) = .ok ((), st3) ∧
      Circle.invokeIsLargerThan 2 (some 0) (F64.ofNat 16) st3
        = .ok (F64.gt (F64.ofNat 100) (F64.ofNat 16), st3) := by
  obtain ⟨c, st1, b, h1, _, _, _, h5⟩ :=
    (comparison_dispatches_through_parent {} (F64.ofNat 2) (F64.ofNat 5) (F64.ofNat 16) 0
      none).1
  rw [NewCircle_run] at h1
  simp only [Except.ok.injEq, Prod.mk.injEq] at h1
  obtain ⟨rfl, rfl⟩ := h1
  refine ⟨?_, rfl, by decide, h5 (fun _ => .ok (F64.ofNat 100)) (F64.ofNat 100) rfl⟩
  have h := Circle_invokeIsLargerThan_new (F64.ofNat 2) (F64.ofNat 16) {} 0
  rw [circle_two_area] at h
  have e : F64.gt (F64.ofBits 0x402921FB54442D18) (F64.ofNat 16) = false := by decide
  rw [e] at h
  exact h

/-! ## The comparison as a function of the threshold and of the sign of the dimension -/

/-- C15: for every circle built by `NewCircle` and every square built by
`NewSquare`, and all thresholds with `t2 <= t`, if `x.IsLargerThan(x, t)` is true
then `x.IsLargerThan(x, t2)` is true, and if `x.IsLargerThan(x, t2)` is false then
`x.IsLargerThan(x, t)` is false. -/
theorem isLargerThan_monotone_in_threshold (st : State) (r s t t2 : F64) (depth : Nat)
    (h : F64.le t2 t = true) :
    (∃ c st1, NewCircle r st = .ok (c, st1) ∧
      (Circle.invokeIsLargerThan (depth + 2) c t st1 = .ok (true, st1) →
        Circle.invokeIsLargerThan (depth + 2) c t2 st1 = .ok (true, st1)) ∧
      (Circle.invokeIsLargerThan (depth + 2) c t2 st1 = .ok (false, st1) →
        Circle.invokeIsLargerThan (depth + 2) c t st1 = .ok (false, st1))) ∧
    (∃ q st1, NewSquare s st = .ok (q, st1) ∧
      (Square.invokeIsLargerThan (depth + 2) q t st1 = .ok (true, st1) →
        Square.invokeIsLargerThan (depth + 2) q t2 st1 = .ok (true, st1)) ∧
      (Square.invokeIsLargerThan (depth + 2) q t2 st1 = .ok (false, st1) →
        Square.invokeIsLargerThan (depth + 2) q t st1 = .ok (false, st1))) := by
  constructor
  · refine ⟨_, _, NewCircle_run r st, ?_, ?_⟩
    · intro h1
      rw [Circle_invokeIsLargerThan_new] at h1 ⊢
      simp only [Except.ok.injEq, Prod.mk.injEq, and_true] at h1
      rw [F64.gt_of_le_of_gt _ _ _ h h1]
    · intro h1
      rw [Circle_invokeIsLargerThan_new] at h1 ⊢
      simp only [Except.ok.injEq, Prod.mk.injEq, and_true] at h1
      rw [F64.not_gt_of_le_of_not_gt _ _ _ h h1]
  · refine ⟨_, _, NewSquare_run s st, ?_, ?_⟩
    · intro h1
      rw [Square_invokeIsLargerThan_new] at h1 ⊢
      simp only [Except.ok.injEq, Prod.mk.injEq, and_true] at h1
      rw [F64.gt_of_le_of_gt _ _ _ h h1]
    · intro h1
      rw [Square_invokeIsLargerThan_new] at h1 ⊢
      simp only [Except.ok.injEq, Prod.mk.injEq, and_true] at h1
      rw [F64.not_gt_of_le_of_not_gt _ _ _ h h1]

set_option maxRecDepth 100000 in
/-- C15 at the square of side 5 of `main` and the thresholds `16 <= 20`: its
area 25 is larger than 20, hence larger than 16. -/
theorem isLargerThan_monotone_in_threshold_witness :
    F64.le (F64.ofNat 16) (F64.ofNat 20) = true ∧
    Square.invokeIsLargerThan 2 (some 0) (F64.ofNat 20) (afterNewSquare (F64.ofNat 5) {})
      = .ok (true, afterNewSquare (F64.ofNat 5) {}) ∧
    Square.invokeIsLargerThan 2 (some 0) (F64.ofNat 16) (afterNewSquare (F64.ofNat 5) {})
      = .ok (true, afterNewSquare (F64.ofNat 5) {}) := by
  have hle : F64.le (F64.ofNat 16) (F64.ofNat 20) = true := by decide
  have h20 : Square.invokeIsLargerThan 2 (some 0) (F64.ofNat 20)
      (afterNewSquare (F64.ofNat 5) {}) = .ok (true, afterNewSquare (F64.ofNat 5) {}) := by
    have h := Square_invokeIsLargerThan_new (F64.ofNat 5) (F64.ofNat 20) {} 0
    rw [square_five_area] at h
    have e : F64.gt (F64.ofNat 25) (F64.ofNat 20) = true := by decide
    rw [e] at h
    exact h
  obtain ⟨q, st1, h1, h2, _⟩ :=
    (isLargerThan_monotone_in_threshold {} (F64.ofNat 2) (F64.ofNat 5) (F64.ofNat 20)
      (F64.ofNat 16) 0 hle).2
  rw [NewSquare_run] at h1
  simp only [Except.ok.injEq, Prod.mk.injEq] at h1
  obtain ⟨rfl, rfl⟩ := h1
  exact ⟨hle, h20, h2 h20⟩

/-- A NaN as dimension: the area is a NaN, which is not `>= 0` and is larger than
no threshold. -/
theorem area_of_nan_dimension :
    F64.mul F64.nan F64.nan = F64.nan ∧ F64.mul (F64.mul Pi F64.nan) F64.nan = F64.nan ∧
    F64.ge F64.nan (F64.zero false) = false ∧
    ∀ t, F64.gt F64.nan t = false := by
  refine ⟨by decide, by decide, by decide, fun t => ?_⟩
  have : F64.nan.isNaN = true := by decide
  simp [F64.gt, this]

/-- C16: the constructors take every float64.  The area of `NewSquare(s)` and
that of `NewSquare(-s)` are the same, and so are those of `NewCircle(r)` and
`NewCircle(-r)`; when the dimension is a number (not a NaN) the area is `>= 0`,
and for a threshold `t < 0` `IsLargerThan(t)` is true on both shapes. -/
theorem area_sign_symmetric_and_nonneg (st : State) (r s t : F64) (depth : Nat) :
    (∃ q st1 q2 st2 a, NewSquare s st = .ok (q, st1) ∧
      NewSquare (F64.neg s) st = .ok (q2, st2) ∧
      Square.invokeGetArea q st1 = .ok (a, st1) ∧
      Square.invokeGetArea q2 st2 = .ok (a, st2) ∧
      (s.isNaN = false → F64.ge a (F64.zero false) = true ∧
        (F64.lt t (F64.zero false) = true →
          Square.invokeIsLargerThan (depth + 2) q t st1 = .ok (true, st1) ∧
          Square.invokeIsLargerThan (depth + 2) q2 t st2 = .ok (true, st2)))) ∧
    (∃ c st1 c2 st2 a, NewCircle r st = .ok (c, st1) ∧
      NewCircle (F64.neg r) st = .ok (c2, st2) ∧
      Circle.invokeGetArea c st1 = .ok (a, st1) ∧
      Circle.invokeGetArea c2 st2 = .ok (a, st2) ∧
      (r.isNaN = false → F64.ge a (F64.zero false) = true ∧
        (F64.lt t (F64.zero false) = true →
          Circle.invokeIsLargerThan (depth + 2) c t st1 = .ok (true, st1) ∧
          Circle.invokeIsLargerThan (depth + 2) c2 t st2 = .ok (true, st2)))) := by
  constructor
  · have e : F64.mul (F64.neg s) (F64.neg s) = F64.mul s s := F64.mul_neg_neg s s
    refine ⟨_, _, _, _, F64.mul s s, NewSquare_run s st, NewSquare_run _ st,
      Square_invokeGetArea_new s st, ?_, ?_⟩
    · rw [Square_invokeGetArea_new, e]
    · intro hs
      obtain ⟨h1, h2⟩ := F64.mul_self_nonneg s hs
      refine ⟨F64.ge_zero_of_sign _ h1 h2, fun ht => ?_⟩
      rw [Square_invokeIsLargerThan_new, Square_invokeIsLargerThan_new, e,
        F64.gt_of_neg_threshold _ t h1 h2 ht]
      exact ⟨rfl, rfl⟩
  · have e := circle_area_neg r
    refine ⟨_, _, _, _, F64.mul (F64.mul Pi r) r, NewCircle_run r st, NewCircle_run _ st,
      Circle_invokeGetArea_new r st, ?_, ?_⟩
    · rw [Circle_invokeGetArea_new, e]
    · intro hr
      obtain ⟨h1, h2⟩ := circle_area_nonneg r hr
      refine ⟨F64.ge_zero_of_sign _ h1 h2, fun ht => ?_⟩
      rw [Circle_invokeIsLargerThan_new, Circle_invokeIsLargerThan_new, e,
        F64.gt_of_neg_threshold _ t h1 h2 ht]
      exact ⟨rfl, rfl⟩

set_option maxRecDepth 100000 in
/-- C16 at the side 5 and the radius 2 of `main` and the threshold -1. -/
theorem area_sign_symmetric_and_nonneg_witness :
    (F64.ofNat 5).isNaN = false ∧ (F64.ofNat 2).isNaN = false ∧
    F64.lt (F64.neg (F64.ofNat 1)) (F64.zero false) = true ∧
    Square.invokeIsLargerThan 2 (some 0) (F64.neg (F64.ofNat 1))
        (afterNewSquare (F64.neg (F64.ofNat 5)) {})
      = .ok (true, afterNewSquare (F64.neg (F64.ofNat 5)) {}) ∧
    Circle.invokeIsLargerThan 2 (some 0) (F64.neg (F64.ofNat 1))
        (afterNewCircle (F64.neg (F64.ofNat 2)) {})
      = .ok (true, afterNewCircle (F64.neg (F64.ofNat 2)) {}) := by
  have h5 : (F64.ofNat 5).isNaN = false := by decide
  have h2 : (F64.ofNat 2).isNaN = false := by decide
  have ht : F64.lt (F64.neg (F64.ofNat 1)) (F64.zero false) = true := by decide
  obtain ⟨⟨q, st1, q2, st2, a, a1, a2, a3, a4, a5⟩, ⟨c, su1, c2, su2, b, b1, b2, b3, b4, b5⟩⟩ :=
    area_sign_symmetric_and_nonneg {} (F64.ofNat 2) (F64.ofNat 5) (F64.neg (F64.ofNat 1)) 0
  rw [NewSquare_run] at a1 a2
  rw [NewCircle_run] at b1 b2
  simp only [Except.ok.injEq, Prod.mk.injEq] at a1 a2 b1 b2
  obtain ⟨rfl, rfl⟩ := a1
  obtain ⟨rfl, rfl⟩ := a2
  obtain ⟨rfl, rfl⟩ := b1
  obtain ⟨rfl, rfl⟩ := b2
  exact ⟨h5, h2, ht, ((a5 h5).2 ht).2, ((b5 h2).2 ht).2⟩

end GoOop
